import Mathlib

/-!
Verification development for the reminder bot in `main.py`.

The file shallowly embeds the parts of the program the claims are about:

* the calendar arithmetic used by the dispatcher (`dateutil.relativedelta`
  with `years=1` / `months=1` / `weeks=1`),
* Python's `datetime.strptime` with the formats `"%d.%m.%Y"` and `"%H:%M"`,
* the timestamp combination of `set_time` (including the `pytz` offset that
  `datetime.replace(tzinfo=pytz.timezone('Asia/Tashkent'))` attaches),
* the conversation handlers (`start`, `button_handler`, `set_title`,
  `set_date`, `set_time`, `list_reminders`) over an explicit session-scratch
  and database state, and
* the due-reminder dispatcher `check_reminders_task` as a step function on
  the database, with external delivery modelled by an oracle.

Machine integers do not occur (all quantities are small nonnegative counters,
ids and calendar fields); fallible operations return `Option`.
-/

namespace EslatmaBot

/-- The three non-trivial values of the `recurring_type` column
(`'yearly' | 'monthly' | 'weekly'`); a one-time reminder stores SQL `NULL`,
modelled as `Option RecType = none`. -/
inductive RecType
  | yearly
  | monthly
  | weekly
deriving DecidableEq

/-- A naive local timestamp at minute granularity (the program only ever
builds timestamps from a parsed date plus an `HH:MM` time, so seconds and
microseconds are always zero). -/
structure DT where
  year : Nat
  month : Nat
  day : Nat
  hour : Nat
  minute : Nat
deriving DecidableEq

/-- Gregorian leap-year test, as `calendar.isleap`. -/
def isLeap (y : Nat) : Bool :=
  y % 4 == 0 && (y % 100 != 0 || y % 400 == 0)

/-- Number of days of month `m` of year `y`, as `calendar.monthrange(y, m)[1]`. -/
def monthLen (y m : Nat) : Nat :=
  if m = 2 then (if isLeap y then 29 else 28)
  else if m = 4 ∨ m = 6 ∨ m = 9 ∨ m = 11 then 30
  else 31

/-- Validity of the calendar fields, as enforced by `datetime.datetime`
(year at least `MINYEAR = 1`, valid month, day and time fields). -/
def ValidDT (d : DT) : Prop :=
  1 ≤ d.year ∧ 1 ≤ d.month ∧ d.month ≤ 12 ∧ 1 ≤ d.day ∧
    d.day ≤ monthLen d.year d.month ∧ d.hour ≤ 23 ∧ d.minute ≤ 59

instance (d : DT) : Decidable (ValidDT d) := by
  unfold ValidDT; infer_instance

/-- `date + relativedelta(years=1)` (dateutil): the year is incremented and
the day is clamped to the length of the target month
(`day = min(calendar.monthrange(year, month)[1], day)`). -/
def addYears1 (d : DT) : DT :=
  { d with year := d.year + 1, day := min (monthLen (d.year + 1) d.month) d.day }

/-- `date + relativedelta(months=1)` (dateutil): the month is incremented with
overflow carried into the year, and the day is clamped to the length of the
target month. -/
def addMonths1 (d : DT) : DT :=
  if d.month = 12 then
    { d with year := d.year + 1, month := 1, day := min (monthLen (d.year + 1) 1) d.day }
  else
    { d with month := d.month + 1, day := min (monthLen d.year (d.month + 1)) d.day }

/-- The next calendar day (time fields unchanged). -/
def nextDay (d : DT) : DT :=
  if d.day < monthLen d.year d.month then { d with day := d.day + 1 }
  else if d.month < 12 then { d with month := d.month + 1, day := 1 }
  else { d with year := d.year + 1, month := 1, day := 1 }

/-- `date + relativedelta(weeks=1)` (dateutil): `weeks` are normalised to
`days = 7` and added as `timedelta(days=7)`, i.e. the calendar date is
advanced by seven days with the time of day unchanged; modelled as seven
successive day increments (`toOrd_addWeeks1` below certifies that this is
exactly a shift by 7 on the proleptic-Gregorian day number, which is how
`datetime + timedelta` is defined: `fromordinal(toordinal() + 7)`). -/
def addWeeks1 (d : DT) : DT :=
  nextDay (nextDay (nextDay (nextDay (nextDay (nextDay (nextDay d))))))

/-- Days in year `y` before month `m`, as CPython's `_DAYS_BEFORE_MONTH`
table plus the leap correction. -/
def daysBeforeMonth (y m : Nat) : Nat :=
  (match m with
   | 1 => 0 | 2 => 31 | 3 => 59 | 4 => 90 | 5 => 120 | 6 => 151
   | 7 => 181 | 8 => 212 | 9 => 243 | 10 => 273 | 11 => 304 | 12 => 334
   | _ => 0)
  + (if 2 < m ∧ isLeap y then 1 else 0)

/-- Days before January 1 of year `y`, as CPython's `_days_before_year`. -/
def daysBeforeYear (y : Nat) : Nat :=
  (y - 1) * 365 + (y - 1) / 4 - (y - 1) / 100 + (y - 1) / 400

/-- Proleptic-Gregorian ordinal of the date, as `datetime.date.toordinal`
(January 1 of year 1 is day 1). -/
def toOrd (d : DT) : Nat :=
  daysBeforeYear d.year + daysBeforeMonth d.year d.month + d.day

/-- The timestamp as a count of naive minutes, used to compare timestamps. -/
def toMin (d : DT) : Nat :=
  toOrd d * 1440 + d.hour * 60 + d.minute

/-- A Python `datetime` value: naive calendar fields plus the fixed UTC
offset (in minutes) of its `tzinfo`, `none` for a naive value. -/
structure PyDT where
  dt : DT
  tzOffsetMin : Option Int
deriving DecidableEq

/-- Modelled from pytz: `datetime.replace(tzinfo=pytz.timezone('Asia/Tashkent'))`
attaches the unlocalised zone object, whose offset is the zone's first
transition info — local mean time UTC+4:37:11, which pytz rounds to whole
minutes, i.e. +04:37 = 277 minutes.  (`pytz.timezone(...).localize` would
attach the modern offset instead; the source never calls it.) -/
def tashkentReplaceOffset : Int := 277

/-- The actual fixed-zone offset of Asia/Tashkent for modern timestamps:
UTC+05:00 = 300 minutes (no DST). `datetime.now(TIMEZONE)` carries this
offset. -/
def tashkentFixedOffset : Int := 300

/-- The UTC instant (in minutes) denoted by an aware Python datetime; a naive
value is read at face value (offset 0). -/
def instantUTC (p : PyDT) : Int :=
  (toMin p.dt : Int) - p.tzOffsetMin.getD 0

/-! ### `datetime.strptime` with the formats `"%d.%m.%Y"` and `"%H:%M"`

CPython's `_strptime` compiles the format into a regular expression with

* `%d` → `3[01]|[12]\d|0[1-9]|[1-9]| [1-9]`
* `%m` → `1[0-2]|0[1-9]|[1-9]`
* `%Y` → `\d\d\d\d`
* `%H` → `2[0-3]|[0-1]\d|\d`
* `%M` → `[0-5]\d|\d`

matches it at position 0 of the input, raises `ValueError` when the match
fails or does not consume the whole string, and finally constructs the
`date`/`time` value, which raises `ValueError` for an out-of-range calendar
date (e.g. day 31 in February, or year 0).

The alternation is embedded as an ordered candidate list per directive plus
explicit backtracking (`tryAlts`).  The only deviation from the engine is
that the whole-string check is performed inside the backtracking rather than
after it; this is observationally equal for these formats because a
two-character candidate requires a digit (or space-digit) pair and the
one-character candidate must be followed by the literal separator, so for any
given input at most one candidate of a directive can reach the end of the
pattern. -/

/-- Numeric value of a digit character. -/
def dval (c : Char) : Nat := c.toNat - 48

/-- Candidate matches of `%d` (`3[01]|[12]\d|0[1-9]|[1-9]| [1-9]`) in the
regex's alternation order; each candidate is the matched value paired with
the unconsumed rest of the input. -/
def dayAlts : List Char → List (Nat × List Char)
  | [] => []
  | [c] => if c.isDigit && c != '0' then [(dval c, [])] else []
  | c1 :: c2 :: r =>
    (if c1 == '3' && (c2 == '0' || c2 == '1') then [(30 + dval c2, r)] else [])
    ++ (if (c1 == '1' || c1 == '2') && c2.isDigit then [(10 * dval c1 + dval c2, r)] else [])
    ++ (if c1 == '0' && (c2.isDigit && c2 != '0') then [(dval c2, r)] else [])
    ++ (if c1.isDigit && c1 != '0' then [(dval c1, c2 :: r)] else [])
    ++ (if c1 == ' ' && (c2.isDigit && c2 != '0') then [(dval c2, r)] else [])

/-- Candidate matches of `%m` (`1[0-2]|0[1-9]|[1-9]`). -/
def monthAlts : List Char → List (Nat × List Char)
  | [] => []
  | [c] => if c.isDigit && c != '0' then [(dval c, [])] else []
  | c1 :: c2 :: r =>
    (if c1 == '1' && (c2 == '0' || c2 == '1' || c2 == '2') then [(10 + dval c2, r)] else [])
    ++ (if c1 == '0' && (c2.isDigit && c2 != '0') then [(dval c2, r)] else [])
    ++ (if c1.isDigit && c1 != '0' then [(dval c1, c2 :: r)] else [])

/-- Candidate matches of `%H` (`2[0-3]|[0-1]\d|\d`). -/
def hourAlts : List Char → List (Nat × List Char)
  | [] => []
  | [c] => if c.isDigit then [(dval c, [])] else []
  | c1 :: c2 :: r =>
    (if c1 == '2' && (c2.isDigit && dval c2 ≤ 3) then [(20 + dval c2, r)] else [])
    ++ (if (c1 == '0' || c1 == '1') && c2.isDigit then [(10 * dval c1 + dval c2, r)] else [])
    ++ (if c1.isDigit then [(dval c1, c2 :: r)] else [])

/-- Candidate matches of `%M` (`[0-5]\d|\d`). -/
def minuteAlts : List Char → List (Nat × List Char)
  | [] => []
  | [c] => if c.isDigit then [(dval c, [])] else []
  | c1 :: c2 :: r =>
    (if (c1.isDigit && dval c1 ≤ 5) && c2.isDigit then [(10 * dval c1 + dval c2, r)] else [])
    ++ (if c1.isDigit then [(dval c1, c2 :: r)] else [])

/-- Regex backtracking over an ordered candidate list: the first candidate
whose continuation succeeds wins. -/
def tryAlts {α : Type} (alts : List (Nat × List Char)) (k : Nat → List Char → Option α) :
    Option α :=
  match alts with
  | [] => none
  | (v, r) :: t =>
    match k v r with
    | some a => some a
    | none => tryAlts t k

/-- Matching of a literal separator character of the format string. -/
def expectChar {α : Type} (c0 : Char) (k : List Char → Option α) : List Char → Option α
  | c :: r => if c = c0 then k r else none
  | [] => none

/-- `%Y` at the end of the pattern: exactly four digits, which must exhaust
the input (strptime raises when unconverted data remains). -/
def year4 : List Char → Option Nat
  | [a, b, c, d] =>
    if a.isDigit && b.isDigit && c.isDigit && d.isDigit then
      some (1000 * dval a + 100 * dval b + 10 * dval c + dval d)
    else none
  | _ => none

/-- Continuation after the month: the second literal dot, then the year. -/
def yearK (d m : Nat) : List Char → Option (Nat × Nat × Nat) :=
  expectChar '.' (fun r4 => (year4 r4).map fun y => (d, m, y))

/-- Continuation after the day: the first literal dot, then the month. -/
def monthK (d : Nat) : List Char → Option (Nat × Nat × Nat) :=
  expectChar '.' (fun r2 => tryAlts (monthAlts r2) (yearK d))

/-- The regex phase of `strptime(s, "%d.%m.%Y")`. -/
def matchDMY (cs : List Char) : Option (Nat × Nat × Nat) :=
  tryAlts (dayAlts cs) monthK

/-- `datetime.strptime(s, "%d.%m.%Y")`: regex match, then construction of
the `date`, which raises for a day beyond the month's length or a year below
`MINYEAR = 1` (a four-digit year never exceeds `MAXYEAR`); `none` models the
`ValueError` caught by `set_date`. -/
def parseDate (s : String) : Option (Nat × Nat × Nat) :=
  match matchDMY s.data with
  | some (d, m, y) => if 1 ≤ y ∧ d ≤ monthLen y m then some (d, m, y) else none
  | none => none

/-- Terminal continuation after the minute: the input must be exhausted
(strptime raises when unconverted data remains). -/
def minTailK (h m : Nat) (r3 : List Char) : Option (Nat × Nat) :=
  if r3.isEmpty then some (h, m) else none

/-- Continuation after the hour: the literal colon, then the minute. -/
def hourK (h : Nat) : List Char → Option (Nat × Nat) :=
  expectChar ':' (fun r2 => tryAlts (minuteAlts r2) (minTailK h))

/-- The regex phase of `strptime(s, "%H:%M")`; the final minute directive
must exhaust the input.  The matched values are always in range by the
pattern itself, so no further validation happens. -/
def matchHM (cs : List Char) : Option (Nat × Nat) :=
  tryAlts (hourAlts cs) hourK

/-- `datetime.strptime(s, "%H:%M").time()`; `none` models the `ValueError`
caught by `set_time`. -/
def parseTime (s : String) : Option (Nat × Nat) :=
  matchHM s.data

/-! ### Data model

Rows of the `users` and `reminders` tables.  `Reminder` additionally carries
two ghost fields that do not exist in the table and never influence any
computation: `chain` identifies the reminder chain (the id of the chain's
original row; a successor inherits its parent's `chain`) and `parent` is the
id of the row whose notification inserted this row (`none` for rows created
by the conversation flow).  They only serve to state the chain claims. -/

/-- A row of the `users` table. -/
structure DbUser where
  id : Nat
  telegram_id : Nat
  username : Option String
  first_name : String
deriving DecidableEq

/-- A row of the `reminders` table (`title` and `date` are nullable columns;
the conversation flow can in principle store `NULL` in them).  `chain` and
`parent` are ghost bookkeeping, see above. -/
structure Reminder where
  id : Nat
  user_id : Nat
  title : Option String
  date : Option PyDT
  is_recurring : Bool
  recurring_type : Option RecType
  is_notified : Bool
  chain : Nat
  parent : Option Nat
deriving DecidableEq

/-- The database: both tables plus the autoincrement counters that assign
fresh primary keys. -/
structure BotDB where
  users : List DbUser
  reminders : List Reminder
  nextRemId : Nat
  nextUserId : Nat
deriving DecidableEq

/-- The per-user session scratch `context.user_data`, a dict with keys
`'title'`, `'date'`, `'is_recurring'`, `'recurring_type'` and
`'delete_reminder_id'`; `none` models an absent key.  The `'date'` key first
holds the naive parsed date and later the combined aware timestamp. -/
structure Scratch where
  title : Option String
  date : Option PyDT
  is_recurring : Option Bool
  recurring_type : Option (Option RecType)
  delete_reminder_id : Option Nat
deriving DecidableEq

/-- `context.user_data.clear()` / a fresh session. -/
def Scratch.empty : Scratch := ⟨none, none, none, none, none⟩

/-- Python truthiness of `context.user_data.get('delete_reminder_id')`:
an absent key gives `None` (falsy) and the integer `0` is falsy. -/
def truthyNat : Option Nat → Bool
  | some n => n != 0
  | none => false

/-- The conversation states, `range(7)` in the source. -/
inductive ConvState
  | MAIN_MENU
  | ADDING_REMINDER
  | SET_TITLE
  | SET_DATE
  | SET_TIME
  | REMINDERS_LIST
  | CONFIRM_DELETE
deriving DecidableEq

/-- An inline keyboard, as its grid of `callback_data` tokens. -/
abbrev Keyboard := List (List String)

/-- `get_main_menu_keyboard()`. -/
def mainMenuKb : Keyboard := [["add_reminder"], ["list_reminders"], ["about"]]

/-- `get_cancel_keyboard()`. -/
def cancelKb : Keyboard := [["cancel"]]

/-- `get_yes_no_keyboard()`. -/
def yesNoKb : Keyboard := [["yes", "no"]]

/-- `get_recurring_keyboard()`. -/
def recurringKb : Keyboard := [["yearly"], ["monthly"], ["weekly"], ["once"], ["cancel"]]

/-- The back-to-menu keyboard that `list_reminders` actually sends. -/
def backKb : Keyboard := [["back_to_menu"]]

/-- The per-reminder delete keyboard built inside the loop of
`list_reminders` (`callback_data=f"delete_{reminder.id}"`).  The source
overwrites the `keyboard` variable with the back-to-menu keyboard after the
loop, so this keyboard never reaches the sent message. -/
def perReminderDeleteKb (r : Reminder) : Keyboard := [["delete_" ++ toString r.id]]

/-- A sent/edited message: its text and inline keyboard. -/
structure Reply where
  text : String
  keyboard : Keyboard
deriving DecidableEq

/-- Result of one conversation turn: the state returned to the
`ConversationHandler`, the session scratch, the database and the reply
shown to the user (`none` when nothing was sent). -/
structure StepRes where
  state : ConvState
  scratch : Scratch
  db : BotDB
  reply : Option Reply
deriving DecidableEq

/-! ### Message texts (the source's literals; `{...}` interpolations become
explicit concatenation) -/

def titlePrompt : String := "Eslatma nomini kiriting:"

def datePrompt : String :=
  "Eslatma sanasini kiriting (KK.OO.YYYY formatida):\nMasalan: 15.05.2025"

def dateErrPrompt : String :=
  "❌ Noto'g'ri format. Iltimos, sanani KK.OO.YYYY formatida kiriting (masalan, 15.05.2025):"

def timePrompt : String :=
  "Eslatma vaqtini kiriting (SS:MM formatida):\nMasalan: 14:30"

def timeErrPrompt : String :=
  "❌ Noto'g'ri format. Iltimos, vaqtni SS:MM formatida kiriting (masalan, 14:30):"

def recurPrompt : String := "Eslatma turini tanlang:"

def cancelledText : String := "Amal bekor qilindi. Bosh menyuga qaytdingiz."

def deleteConfirmText : String := "Eslatmani o'chirishni tasdiqlaysizmi?"

def deleteDoneText : String := "✅ Eslatma muvaffaqiyatli o'chirildi!"

def deleteNotFoundText : String := "❌ Eslatma topilmadi."

def deleteCancelledText : String := "Eslatmani o'chirish bekor qilindi."

def addErrText : String :=
  "❌ Eslatma qo'shishda xatolik yuz berdi. Qaytadan urinib ko'ring."

def backMenuText : String := "Bosh menyu:"

def noUserText : String := "❌ Foydalanuvchi ma'lumotlari topilmadi."

def noRemindersText : String := "📝 Sizda hech qanday eslatma yo'q."

def listHeaderText : String := "📋 *Sizning eslatmalaringiz:*\n\n"

def listErrText : String := "❌ Eslatmalarni ko'rishda xatolik yuz berdi."

/-- `str(x)` of an optional string, as a Python f-string renders it
(`None` for an absent value). -/
def pyStr : Option String → String
  | some s => s
  | none => "None"

/-- Two-digit zero padding, as strftime's `%d`/`%m`/`%H`/`%M`. -/
def pad2 (n : Nat) : String :=
  if n < 10 then "0" ++ toString n else toString n

/-- Four-digit zero padding, as strftime's `%Y` for the years at hand. -/
def pad4 (n : Nat) : String :=
  if n < 10 then "000" ++ toString n
  else if n < 100 then "00" ++ toString n
  else if n < 1000 then "0" ++ toString n
  else toString n

/-- `date.strftime('%d.%m.%Y')`. -/
def fmtDate (p : PyDT) : String :=
  pad2 p.dt.day ++ "." ++ pad2 p.dt.month ++ "." ++ pad4 p.dt.year

/-- `date.strftime('%H:%M')`. -/
def fmtTime (p : PyDT) : String :=
  pad2 p.dt.hour ++ ":" ++ pad2 p.dt.minute

/-- `get_recurring_text`. -/
def getRecurringText : Option RecType → String
  | some .yearly => "Har yili"
  | some .monthly => "Har oyda"
  | some .weekly => "Har hafta"
  | _ => "Bir martalik"

/-! ### Conversation handlers -/

/-- The user upsert performed by `start`: look up by `telegram_id`, insert a
new row or refresh `username`/`first_name`. -/
def upsertUser (uid : Nat) (uname : Option String) (fname : String) (db : BotDB) : BotDB :=
  if db.users.any (fun u => u.telegram_id == uid) then
    { db with users := db.users.map fun u =>
        if u.telegram_id == uid then { u with username := uname, first_name := fname } else u }
  else
    { db with users := db.users ++ [⟨db.nextUserId, uid, uname, fname⟩],
              nextUserId := db.nextUserId + 1 }

def welcomeText (fname : String) : String :=
  "Assalomu alaykum, " ++ fname ++ "! Eslatma botiga xush kelibsiz!\n\n" ++
  "Bu bot muhim sanalarda sizga eslatmalar yuboradi. Masalan tug'ilgan kunlar, uchrashuvlar va boshqa tadbirlar haqida."

/-- The `/start` handler: upsert the user, clear the session scratch, show
the main menu and return `MAIN_MENU`.  It is an entry point, a `MAIN_MENU`
handler and a fallback, so it fires in every state. -/
def startHandler (uid : Nat) (uname : Option String) (fname : String)
    (db : BotDB) : StepRes :=
  { state := .MAIN_MENU, scratch := Scratch.empty,
    db := upsertUser uid uname fname db,
    reply := some ⟨welcomeText fname, mainMenuKb⟩ }

/-- The success message of the `yearly|monthly|weekly|once` branch. -/
def addedText (title : Option String) (p : PyDT) (rt : Option RecType) : String :=
  "✅ Eslatma muvaffaqiyatli qo'shildi!\n\n" ++
  "📝 Sarlavha: " ++ pyStr title ++ "\n" ++
  "📅 Sana: " ++ fmtDate p ++ "\n" ++
  "🕒 Vaqt: " ++ fmtTime p ++ "\n" ++
  "🔄 Takrorlanish: " ++ getRecurringText rt

def aboutText : String :=
  "📆 *Eslatma Bot* 📆\n\n" ++
  "Muhim sanalarni eslatib turuvchi bot. Tug'ilgan kunlar, uchrashuvlar va boshqa tadbirlar haqida o'z vaqtida xabar olishingiz mumkin.\n\n" ++
  "Buyruqlar:\n/start - Botni ishga tushirish\n/help - Yordam olish"

/-- The `yearly|monthly|weekly|once` branch of `button_handler`: store the
recurrence choice in the scratch, look up the user and insert the new
reminder row.  A missing user row makes `user.id` raise `AttributeError`,
which the surrounding `except` turns into the error reply (no row inserted);
a `NULL` stored date makes `reminder.date.strftime` raise *after* the
commit, so the row is inserted but the error reply is shown.  Ghost fields
of the new row: `chain` is its own id, `parent` is `none`. -/
def addReminderFinish (uid : Nat) (tok : String) (sc : Scratch) (db : BotDB) : StepRes :=
  let rt : Option RecType :=
    if tok == "yearly" then some .yearly
    else if tok == "monthly" then some .monthly
    else if tok == "weekly" then some .weekly
    else none
  let sc' : Scratch := { sc with recurring_type := some rt, is_recurring := some (tok != "once") }
  match db.users.find? (fun u => u.telegram_id == uid) with
  | none => { state := .MAIN_MENU, scratch := sc', db := db, reply := some ⟨addErrText, mainMenuKb⟩ }
  | some u =>
    let r : Reminder :=
      { id := db.nextRemId, user_id := u.id, title := sc'.title, date := sc'.date,
        is_recurring := sc'.is_recurring.getD false, recurring_type := rt,
        is_notified := false, chain := db.nextRemId, parent := none }
    let db' : BotDB := { db with reminders := db.reminders ++ [r], nextRemId := db.nextRemId + 1 }
    match sc'.date with
    | some p =>
      { state := .MAIN_MENU, scratch := sc', db := db',
        reply := some ⟨addedText sc'.title p rt, mainMenuKb⟩ }
    | none =>
      { state := .MAIN_MENU, scratch := sc', db := db', reply := some ⟨addErrText, mainMenuKb⟩ }

/-- One rendered entry of the reminder list (`none` models the
`AttributeError` that `reminder.date.strftime` raises on a `NULL` date,
caught by the handler's `except`). -/
def renderEntry (i : Nat) (r : Reminder) : Option String :=
  match r.date with
  | none => none
  | some p =>
    some ("*" ++ toString i ++ ". " ++ pyStr r.title ++ "*\n" ++
      "📅 Sana: " ++ fmtDate p ++ "\n" ++
      "🕒 Vaqt: " ++ fmtTime p ++ "\n" ++
      "🔄 Takrorlanish: " ++ getRecurringText r.recurring_type ++ "\n")

/-- The entry separator `"\n" + "-" * 20 + "\n\n"` inserted after every
entry but the last. -/
def entrySep : String := "\n--------------------\n\n"

/-- The loop of `list_reminders`: entries are rendered 1-based in list
order. -/
def renderEntries (i total : Nat) : List Reminder → Option String
  | [] => some ""
  | r :: t =>
    match renderEntry i r, renderEntries (i + 1) total t with
    | some s, some rest => some (s ++ (if i < total then entrySep else "") ++ rest)
    | _, _ => none

/-- `list_reminders`: resolve the user by `telegram_id`, render all of their
reminders in insertion order and send the text with the back-to-menu
keyboard (the per-reminder delete keyboards built in the loop are discarded,
see `perReminderDeleteKb`).  Always returns `REMINDERS_LIST`. -/
def listRemindersHandler (uid : Nat) (sc : Scratch) (db : BotDB) : StepRes :=
  match db.users.find? (fun u => u.telegram_id == uid) with
  | none => { state := .REMINDERS_LIST, scratch := sc, db := db, reply := some ⟨noUserText, backKb⟩ }
  | some u =>
    let rs := db.reminders.filter (fun r => r.user_id == u.id)
    if rs.isEmpty then
      { state := .REMINDERS_LIST, scratch := sc, db := db, reply := some ⟨noRemindersText, backKb⟩ }
    else
      match renderEntries 1 rs.length rs with
      | some body =>
        { state := .REMINDERS_LIST, scratch := sc, db := db,
          reply := some ⟨listHeaderText ++ body, backKb⟩ }
      | none =>
        { state := .REMINDERS_LIST, scratch := sc, db := db,
          reply := some ⟨listErrText, mainMenuKb⟩ }

/-- Guard of the `'yes' and context.user_data.get('delete_reminder_id')`
branch: the token must be `yes` and the stored id truthy. -/
def yesGuard (tok : String) (sc : Scratch) : Option Nat :=
  if tok == "yes" then
    match sc.delete_reminder_id with
    | some rid => if rid != 0 then some rid else none
    | none => none
  else none

/-- The delete branch: `session.query(Reminder).filter_by(id=reminder_id)`
looks the row up by id only (no ownership restriction) and deletes it when
present. -/
def deleteById (rid : Nat) (sc : Scratch) (db : BotDB) : StepRes :=
  match db.reminders.find? (fun r => r.id == rid) with
  | some _ =>
    { state := .MAIN_MENU, scratch := sc,
      db := { db with reminders := db.reminders.eraseP (fun r => r.id == rid) },
      reply := some ⟨deleteDoneText, mainMenuKb⟩ }
  | none =>
    { state := .MAIN_MENU, scratch := sc, db := db, reply := some ⟨deleteNotFoundText, mainMenuKb⟩ }

/-- `button_handler`, the callback-query handler registered in every
conversation state.  It never inspects the current state.  `none` models an
uncaught exception inside the handler — only possible in the `delete_`
branch, where `int(query.data.split('_')[1])` raises on a non-numeric id —
in which case the framework keeps the previous conversation state.  The
final `return MAIN_MENU` is the fall-through for every unrecognized token. -/
def buttonHandler (uid : Nat) (tok : String) (sc : Scratch) (db : BotDB) : Option StepRes :=
  if tok == "add_reminder" then
    some { state := .SET_TITLE, scratch := sc, db := db, reply := some ⟨titlePrompt, cancelKb⟩ }
  else if tok == "list_reminders" then
    some (listRemindersHandler uid sc db)
  else if tok == "about" then
    some { state := .MAIN_MENU, scratch := sc, db := db, reply := some ⟨aboutText, mainMenuKb⟩ }
  else if tok == "cancel" then
    some { state := .MAIN_MENU, scratch := sc, db := db, reply := some ⟨cancelledText, mainMenuKb⟩ }
  else if tok == "yearly" || tok == "monthly" || tok == "weekly" || tok == "once" then
    some (addReminderFinish uid tok sc db)
  else if tok.startsWith "delete_" then
    match (tok.splitOn "_").drop 1 with
    | s :: _ =>
      match s.toNat? with
      | some rid =>
        some { state := .CONFIRM_DELETE, scratch := { sc with delete_reminder_id := some rid },
               db := db, reply := some ⟨deleteConfirmText, yesNoKb⟩ }
      | none => none
    | [] => none
  else
    match yesGuard tok sc with
    | some rid => some (deleteById rid sc db)
    | none =>
      if tok == "no" then
        some { state := .MAIN_MENU, scratch := sc, db := db,
               reply := some ⟨deleteCancelledText, mainMenuKb⟩ }
      else if tok == "back_to_list" then
        some (listRemindersHandler uid sc db)
      else if tok == "back_to_menu" then
        some { state := .MAIN_MENU, scratch := sc, db := db, reply := some ⟨backMenuText, mainMenuKb⟩ }
      else
        some { state := .MAIN_MENU, scratch := sc, db := db, reply := none }

/-- `set_title`: store the message text, prompt for the date. -/
def setTitleHandler (msg : String) (sc : Scratch) (db : BotDB) : StepRes :=
  { state := .SET_DATE, scratch := { sc with title := some msg }, db := db,
    reply := some ⟨datePrompt, cancelKb⟩ }

/-- `set_date`: parse the message as `%d.%m.%Y`; on success store the naive
midnight datetime and advance, on `ValueError` re-prompt and stay. -/
def setDateHandler (msg : String) (sc : Scratch) (db : BotDB) : StepRes :=
  match parseDate msg with
  | some (d, m, y) =>
    { state := .SET_TIME, scratch := { sc with date := some ⟨⟨y, m, d, 0, 0⟩, none⟩ },
      db := db, reply := some ⟨timePrompt, cancelKb⟩ }
  | none =>
    { state := .SET_DATE, scratch := sc, db := db, reply := some ⟨dateErrPrompt, cancelKb⟩ }

/-- `set_time`: parse the message as `%H:%M`; on success combine
`date.date()` with the parsed time (`datetime.combine` keeps only the
calendar day of the stored value) and attach the pytz zone via
`.replace(tzinfo=TIMEZONE)`, store it, and advance; on `ValueError`
re-prompt and stay.  `none` models the uncaught `KeyError` when the
`'date'` scratch key is absent (`context.user_data['date']` — `KeyError`
is not a `ValueError`, so it escapes the handler and the framework keeps
the previous state). -/
def setTimeHandler (msg : String) (sc : Scratch) (db : BotDB) : Option StepRes :=
  match parseTime msg with
  | some (hh, mm) =>
    match sc.date with
    | some p =>
      let full : PyDT := ⟨⟨p.dt.year, p.dt.month, p.dt.day, hh, mm⟩, some tashkentReplaceOffset⟩
      some { state := .ADDING_REMINDER, scratch := { sc with date := some full },
             db := db, reply := some ⟨recurPrompt, recurringKb⟩ }
    | none => none
  | none =>
    some { state := .SET_TIME, scratch := sc, db := db, reply := some ⟨timeErrPrompt, cancelKb⟩ }

/-- An inbound event consumed by the conversation machine. -/
inductive Event
  | startCmd (uname : Option String) (fname : String)
  | message (text : String)
  | callback (tok : String)
deriving DecidableEq

/-- One turn of the conversation machine, as wired by the
`ConversationHandler`: `/start` fires in every state (entry point and
fallback); a callback query is handled by `button_handler` in every state;
a text message is handled by the state's `MessageHandler` where one is
registered (`SET_TITLE`, `SET_DATE`, `SET_TIME`) and ignored elsewhere.
When a handler raises (`none` results), the framework keeps the previous
state and neither scratch nor database were changed. -/
def stepConv (uid : Nat) (st : ConvState) (ev : Event) (sc : Scratch) (db : BotDB) : StepRes :=
  match ev with
  | .startCmd un fn => startHandler uid un fn db
  | .callback tok =>
    match buttonHandler uid tok sc db with
    | some res => res
    | none => { state := st, scratch := sc, db := db, reply := none }
  | .message s =>
    match st with
    | .SET_TITLE => setTitleHandler s sc db
    | .SET_DATE => setDateHandler s sc db
    | .SET_TIME =>
      match setTimeHandler s sc db with
      | some res => res
      | none => { state := st, scratch := sc, db := db, reply := none }
    | _ => { state := st, scratch := sc, db := db, reply := none }

/-! ### The due-reminder dispatcher `check_reminders_task`

One run takes a snapshot of the due, unnotified reminders
(`Reminder.date <= now AND is_notified == False`) and processes each in
order: resolve the owner (skip silently when missing), deliver the
notification (delivery success is an oracle `deliver`; on failure
`continue` to the next reminder with no changes), then set `is_notified`
and — for a recurring reminder whose `recurring_type` yields a successor
date — insert the new row with a fresh id, `is_notified = False`, and the
timestamp advanced by `relativedelta`.  Rows with a `NULL` date are never
selected by the SQL filter, so `nextDateR`'s `none` in that case is
unreachable from a run. -/

/-- The successor timestamp: `reminder.date + relativedelta(...)` according
to `recurring_type`, `none` when `recurring_type` is `NULL`.  dateutil
arithmetic keeps the attached `tzinfo` (and hence the modelled offset). -/
def nextDateR (r : Reminder) : Option PyDT :=
  match r.date, r.recurring_type with
  | some p, some .yearly => some ⟨addYears1 p.dt, p.tzOffsetMin⟩
  | some p, some .monthly => some ⟨addMonths1 p.dt, p.tzOffsetMin⟩
  | some p, some .weekly => some ⟨addWeeks1 p.dt, p.tzOffsetMin⟩
  | _, _ => none

/-- `reminder.is_notified = True` on the row with the given id. -/
def markNotified (rs : List Reminder) (i : Nat) : List Reminder :=
  rs.map fun r => if r.id = i then { r with is_notified := true } else r

/-- The successor row inserted for `r`: same owner, title and recurrence,
`is_notified = False`, fresh id.  Ghost fields: it belongs to `r`'s chain
and records `r` as its parent. -/
def mkSucc (r : Reminder) (nd : PyDT) (i : Nat) : Reminder :=
  { id := i, user_id := r.user_id, title := r.title, date := some nd,
    is_recurring := r.is_recurring, recurring_type := r.recurring_type,
    is_notified := false, chain := r.chain, parent := some r.id }

/-- Processing of one due reminder from the snapshot. -/
def processOne (deliver : Reminder → Bool) (db : BotDB) (r : Reminder) : BotDB :=
  match db.users.find? (fun u => u.id == r.user_id) with
  | none => db
  | some _ =>
    if deliver r then
      let rs1 := markNotified db.reminders r.id
      if r.is_recurring then
        match nextDateR r with
        | some nd =>
          { db with reminders := rs1 ++ [mkSucc r nd db.nextRemId], nextRemId := db.nextRemId + 1 }
        | none => { db with reminders := rs1 }
      else { db with reminders := rs1 }
    else db

/-- The SQL filter `Reminder.date <= now AND is_notified == False`; aware
timestamps compare as instants, and a `NULL` date never satisfies the
comparison. -/
def isDue (now : Int) (r : Reminder) : Bool :=
  match r.date with
  | some p => decide (instantUTC p ≤ now) && !r.is_notified
  | none => false

/-- One dispatcher run at instant `now` with delivery oracle `deliver`. -/
def runDispatcher (deliver : Reminder → Bool) (now : Int) (db : BotDB) : BotDB :=
  (db.reminders.filter (isDue now)).foldl (processOne deliver) db

/-- States reachable from `db` by repeated dispatcher runs (each run with
its own scan instant and delivery outcomes). -/
inductive Reach : BotDB → BotDB → Prop
  | refl (db : BotDB) : Reach db db
  | step {db db' : BotDB} (deliver : Reminder → Bool) (now : Int) :
      Reach db db' → Reach db (runDispatcher deliver now db')

/-- Well-formedness of the reminder table: every id is below the
autoincrement counter and ids are pairwise distinct. -/
def WFdb (db : BotDB) : Prop :=
  (∀ r ∈ db.reminders, r.id < db.nextRemId) ∧
    db.reminders.Pairwise (fun a b => a.id ≠ b.id)

/-- Number of unnotified rows of chain `c`. -/
def cntChain (c : Nat) (rs : List Reminder) : Nat :=
  rs.countP fun r => r.chain == c && !r.is_notified

/-- Contribution of one row to `cntChain`. -/
def chainWeight (c : Nat) (r : Reminder) : Nat :=
  if r.chain == c && !r.is_notified then 1 else 0

/-- The at-most-one-unnotified-occurrence invariant. -/
def ChainInv (db : BotDB) : Prop :=
  ∀ c : Nat, cntChain c db.reminders ≤ 1

/-- The claimed timestamp semantics of the spec, stated on its own terms:
the calendar instant (UTC minutes) denoted by the given wall-clock fields in
the fixed zone Asia/Tashkent (UTC+05:00). -/
def specFixedZoneInstant (y m d hh mm : Nat) : Int :=
  (toMin ⟨y, m, d, hh, mm⟩ : Int) - tashkentFixedOffset

/-- The spec's stated date contract, on its own terms: exactly two-digit
day, two-digit month, four-digit year with dot separators, denoting a valid
calendar date. -/
def specExactDateOK (s : String) : Bool :=
  match s.data with
  | [d1, d2, '.', m1, m2, '.', y1, y2, y3, y4] =>
    d1.isDigit && d2.isDigit && m1.isDigit && m2.isDigit &&
    y1.isDigit && y2.isDigit && y3.isDigit && y4.isDigit &&
    (let d := 10 * dval d1 + dval d2
     let m := 10 * dval m1 + dval m2
     let y := 1000 * dval y1 + 100 * dval y2 + 10 * dval y3 + dval y4
     decide (1 ≤ d ∧ 1 ≤ m ∧ m ≤ 12 ∧ 1 ≤ y ∧ d ≤ monthLen y m))
  | _ => false

/-- The spec's stated time contract, on its own terms: exactly two-digit
hour and minute, 24-hour clock, colon separator. -/
def specExactTimeOK (s : String) : Bool :=
  match s.data with
  | [h1, h2, ':', m1, m2] =>
    h1.isDigit && h2.isDigit && m1.isDigit && m2.isDigit &&
    decide (10 * dval h1 + dval h2 ≤ 23 ∧ 10 * dval m1 + dval m2 ≤ 59)
  | _ => false

/-! ### The amended format contract, stated declaratively

Committed (non-backtracking) token matchers transcribing the amended claim:
a date is a one-or-two character day token, a dot, a one-or-two character
month token, a dot and exactly four digits; a time is a one-or-two
character hour token, a colon and a one-or-two character minute token.
`matcher_complete` lemmas below prove them equal to the strptime
embedding. -/

/-- One-character day token: a digit `1`–`9`. -/
def dayTok1 (c : Char) : Option Nat :=
  if c.isDigit && c != '0' then some (dval c) else none

/-- Two-character day token: `30`/`31`, `10`–`29`, `01`–`09`, or a space
followed by a digit `1`–`9`. -/
def dayTok2 (c1 c2 : Char) : Option Nat :=
  if c1 == '3' && (c2 == '0' || c2 == '1') then some (30 + dval c2)
  else if (c1 == '1' || c1 == '2') && c2.isDigit then some (10 * dval c1 + dval c2)
  else if c1 == '0' && (c2.isDigit && c2 != '0') then some (dval c2)
  else if c1 == ' ' && (c2.isDigit && c2 != '0') then some (dval c2)
  else none

/-- One-character month token: a digit `1`–`9`. -/
def monthTok1 (c : Char) : Option Nat :=
  if c.isDigit && c != '0' then some (dval c) else none

/-- Two-character month token: `10`–`12` or `01`–`09`. -/
def monthTok2 (c1 c2 : Char) : Option Nat :=
  if c1 == '1' && (c2 == '0' || c2 == '1' || c2 == '2') then some (10 + dval c2)
  else if c1 == '0' && (c2.isDigit && c2 != '0') then some (dval c2)
  else none

/-- One-character hour token: any digit. -/
def hourTok1 (c : Char) : Option Nat :=
  if c.isDigit then some (dval c) else none

/-- Two-character hour token: `20`–`23` or `00`–`19`. -/
def hourTok2 (c1 c2 : Char) : Option Nat :=
  if c1 == '2' && (c2.isDigit && dval c2 ≤ 3) then some (20 + dval c2)
  else if (c1 == '0' || c1 == '1') && c2.isDigit then some (10 * dval c1 + dval c2)
  else none

/-- The month-then-year tail of the declarative date matcher: a one- or
two-character month token followed by a dot and the year. -/
def specLenMY (d : Nat) : List Char → Option (Nat × Nat × Nat)
  | c1 :: c2 :: rest =>
    if c2 = '.' then (monthTok1 c1).bind fun m => (year4 rest).map fun y => (d, m, y)
    else
      match rest with
      | c3 :: rest2 =>
        if c3 = '.' then (monthTok2 c1 c2).bind fun m => (year4 rest2).map fun y => (d, m, y)
        else none
      | [] => none
  | _ => none

/-- The declarative (committed) date matcher of the amended claim: a one-
or two-character day token, a dot, a month token, a dot and a four-digit
year. -/
def specLenDMY : List Char → Option (Nat × Nat × Nat)
  | c1 :: c2 :: rest =>
    if c2 = '.' then (dayTok1 c1).bind fun d => specLenMY d rest
    else
      match rest with
      | c3 :: rest2 =>
        if c3 = '.' then (dayTok2 c1 c2).bind fun d => specLenMY d rest2
        else none
      | [] => none
  | _ => none

/-- The accepted date inputs per the amended claim: the declarative lenient
match together with calendar validity. -/
def specLenDate (s : String) : Option (Nat × Nat × Nat) :=
  match specLenDMY s.data with
  | some (d, m, y) => if 1 ≤ y ∧ d ≤ monthLen y m then some (d, m, y) else none
  | none => none

/-- Terminal minute token: one digit, or two digits with value at most 59,
consuming the whole remaining input. -/
def minuteEnd (h : Nat) : List Char → Option (Nat × Nat)
  | [c] => if c.isDigit then some (h, dval c) else none
  | [c1, c2] => if (c1.isDigit && dval c1 ≤ 5) && c2.isDigit then some (h, 10 * dval c1 + dval c2) else none
  | _ => none

/-- The declarative (committed) time matcher of the amended claim: a one-
or two-character hour token, a colon and a terminal minute token. -/
def specLenHM : List Char → Option (Nat × Nat)
  | c1 :: c2 :: rest =>
    if c2 = ':' then (hourTok1 c1).bind fun h => minuteEnd h rest
    else
      match rest with
      | c3 :: rest2 =>
        if c3 = ':' then (hourTok2 c1 c2).bind fun h => minuteEnd h rest2
        else none
      | [] => none
  | _ => none

/-- The accepted time inputs per the amended claim. -/
def specLenTime (s : String) : Option (Nat × Nat) :=
  specLenHM s.data

/-- How one dispatcher run relates its result to the pre-run database:
every surviving row is an old row, unchanged or with its notified flag
newly set; every new row (id at or above the old counter) is an unnotified
recurring successor whose parent is an old unnotified row of the same
chain, delivered successfully in this very run and notified in the
result. -/
def TraceRun (deliver : Reminder → Bool) (db0 db : BotDB) : Prop :=
  ∀ r' ∈ db.reminders,
    (r'.id < db0.nextRemId →
      ∃ r ∈ db0.reminders, r.id = r'.id ∧ (r' = r ∨ r' = { r with is_notified := true })) ∧
    (db0.nextRemId ≤ r'.id →
      r'.is_notified = false ∧ r'.is_recurring = true ∧
      ∃ r ∈ db0.reminders, r'.parent = some r.id ∧ r.is_notified = false ∧
        r.chain = r'.chain ∧ deliver r = true ∧
        { r with is_notified := true } ∈ db.reminders)

/-! ## Calendar lemmas -/

theorem pydt_dt (a : DT) (b : Option Int) : (⟨a, b⟩ : PyDT).dt = a := rfl

theorem pydt_tz (a : DT) (b : Option Int) : (⟨a, b⟩ : PyDT).tzOffsetMin = b := rfl

theorem isLeap_iff (y : Nat) :
    isLeap y = true ↔ (y % 4 = 0 ∧ (¬ y % 100 = 0 ∨ y % 400 = 0)) := by
  simp [isLeap]

theorem monthLen_pos (y m : Nat) : 1 ≤ monthLen y m := by
  unfold monthLen; split_ifs <;> omega

theorem daysBeforeMonth_succ (y m : Nat) (h1 : 1 ≤ m) (h2 : m ≤ 11) :
    daysBeforeMonth y (m + 1) = daysBeforeMonth y m + monthLen y m := by
  interval_cases m <;> by_cases hL : isLeap y = true <;>
    simp [daysBeforeMonth, monthLen, hL]

set_option maxHeartbeats 1000000 in
theorem daysBeforeYear_succ (y : Nat) (hy : 1 ≤ y) :
    daysBeforeYear (y + 1) = daysBeforeYear y + 365 + (if isLeap y = true then 1 else 0) := by
  have hiff := isLeap_iff y
  by_cases hL : isLeap y = true
  · rw [if_pos hL]
    have h := hiff.mp hL
    unfold daysBeforeYear
    clear hiff hL
    omega
  · rw [if_neg hL]
    have hn : ¬ (y % 4 = 0 ∧ (¬ y % 100 = 0 ∨ y % 400 = 0)) := fun hc => hL (hiff.mpr hc)
    unfold daysBeforeYear
    by_cases h4 : y % 4 = 0
    · by_cases h100 : y % 100 = 0
      · by_cases h400 : y % 400 = 0
        · exact absurd ⟨h4, Or.inr h400⟩ hn
        · clear hiff hn hL
          omega
      · exact absurd ⟨h4, Or.inl h100⟩ hn
    · clear hiff hn hL
      omega

theorem daysBeforeMonth_12 (y : Nat) :
    daysBeforeMonth y 12 = 334 + (if isLeap y = true then 1 else 0) := by
  by_cases hL : isLeap y = true <;> simp [daysBeforeMonth, hL]

theorem toOrd_nextDay (d : DT) (h : ValidDT d) : toOrd (nextDay d) = toOrd d + 1 := by
  obtain ⟨hy, hm1, hm2, hd1, hd2, _, _⟩ := h
  unfold nextDay
  by_cases h1 : d.day < monthLen d.year d.month
  · rw [if_pos h1]
    simp only [toOrd]
    omega
  · rw [if_neg h1]
    have hde : d.day = monthLen d.year d.month := le_antisymm hd2 (not_lt.mp h1)
    by_cases hm : d.month < 12
    · rw [if_pos hm]
      have hs := daysBeforeMonth_succ d.year d.month hm1 (by omega)
      simp only [toOrd]
      omega
    · rw [if_neg hm]
      have hm12 : d.month = 12 := by omega
      have hdby := daysBeforeYear_succ d.year hy
      have hml : monthLen d.year 12 = 31 := rfl
      have hd31 : d.day = 31 := by rw [hde, hm12, hml]
      have hdbm := daysBeforeMonth_12 d.year
      have hd1' : daysBeforeMonth (d.year + 1) 1 = 0 := rfl
      simp only [toOrd, hm12]
      by_cases hL : isLeap d.year = true
      · rw [if_pos hL] at hdby hdbm
        omega
      · rw [if_neg hL] at hdby hdbm
        omega

theorem nextDay_hour (d : DT) : (nextDay d).hour = d.hour := by
  unfold nextDay; split_ifs <;> rfl

theorem nextDay_minute (d : DT) : (nextDay d).minute = d.minute := by
  unfold nextDay; split_ifs <;> rfl

theorem validDT_nextDay (d : DT) (h : ValidDT d) : ValidDT (nextDay d) := by
  obtain ⟨hy, hm1, hm2, hd1, hd2, hh, hmin⟩ := h
  have hp1 := monthLen_pos d.year (d.month + 1)
  have hp2 := monthLen_pos (d.year + 1) 1
  unfold nextDay
  by_cases h1 : d.day < monthLen d.year d.month
  · rw [if_pos h1]
    exact ⟨hy, hm1, hm2, Nat.le_add_left 1 d.day,
      show d.day + 1 ≤ monthLen d.year d.month from h1, hh, hmin⟩
  · rw [if_neg h1]
    by_cases hm : d.month < 12
    · rw [if_pos hm]
      exact ⟨hy, show 1 ≤ d.month + 1 by omega, show d.month + 1 ≤ 12 by omega,
        le_refl 1, hp1, hh, hmin⟩
    · rw [if_neg hm]
      exact ⟨show 1 ≤ d.year + 1 by omega, le_refl 1, show (1 : Nat) ≤ 12 by omega,
        le_refl 1, hp2, hh, hmin⟩

theorem toOrd_addWeeks1 (d : DT) (h : ValidDT d) :
    toOrd (addWeeks1 d) = toOrd d + 7 ∧ ValidDT (addWeeks1 d) ∧
      (addWeeks1 d).hour = d.hour ∧ (addWeeks1 d).minute = d.minute := by
  have s1 : ValidDT (nextDay d) := validDT_nextDay d h
  have s2 : ValidDT (nextDay (nextDay d)) := validDT_nextDay _ s1
  have s3 := validDT_nextDay _ s2
  have s4 := validDT_nextDay _ s3
  have s5 := validDT_nextDay _ s4
  have s6 := validDT_nextDay _ s5
  have s7 := validDT_nextDay _ s6
  refine ⟨?_, s7, ?_, ?_⟩
  · unfold addWeeks1
    rw [toOrd_nextDay _ s6, toOrd_nextDay _ s5, toOrd_nextDay _ s4, toOrd_nextDay _ s3,
      toOrd_nextDay _ s2, toOrd_nextDay _ s1, toOrd_nextDay _ h]
  · unfold addWeeks1
    simp [nextDay_hour]
  · unfold addWeeks1
    simp [nextDay_minute]

theorem validDT_addYears1 (d : DT) (h : ValidDT d) : ValidDT (addYears1 d) := by
  obtain ⟨hy, hm1, hm2, hd1, hd2, hh, hmin⟩ := h
  have hp := monthLen_pos (d.year + 1) d.month
  exact ⟨show 1 ≤ d.year + 1 by omega, hm1, hm2,
    show 1 ≤ min (monthLen (d.year + 1) d.month) d.day by omega,
    show min (monthLen (d.year + 1) d.month) d.day ≤ monthLen (d.year + 1) d.month by omega,
    hh, hmin⟩

theorem validDT_addMonths1 (d : DT) (h : ValidDT d) : ValidDT (addMonths1 d) := by
  obtain ⟨hy, hm1, hm2, hd1, hd2, hh, hmin⟩ := h
  unfold addMonths1
  by_cases hm : d.month = 12
  · rw [if_pos hm]
    have hp := monthLen_pos (d.year + 1) 1
    exact ⟨show 1 ≤ d.year + 1 by omega, le_refl 1, show (1 : Nat) ≤ 12 by omega,
      show 1 ≤ min (monthLen (d.year + 1) 1) d.day by omega,
      show min (monthLen (d.year + 1) 1) d.day ≤ monthLen (d.year + 1) 1 by omega,
      hh, hmin⟩
  · rw [if_neg hm]
    have hp := monthLen_pos d.year (d.month + 1)
    exact ⟨hy, show 1 ≤ d.month + 1 by omega, show d.month + 1 ≤ 12 by omega,
      show 1 ≤ min (monthLen d.year (d.month + 1)) d.day by omega,
      show min (monthLen d.year (d.month + 1)) d.day ≤ monthLen d.year (d.month + 1) by omega,
      hh, hmin⟩

set_option maxHeartbeats 1000000 in
/-- C2. The dispatcher's successor-timestamp computation: `yearly` advances
by exactly one calendar year (day clamped to a valid date, so a Feb 29
anchor rolls to Feb 28), `monthly` advances by exactly one calendar month
(day preserved when possible, otherwise clamped to the target month's last
day; in particular 2025-01-31T10:00 yields 2025-02-28T10:00), and `weekly`
advances by exactly 7 days; the wall-clock time and the attached offset are
preserved throughout. -/
theorem C2_successor_timestamps (r : Reminder) (p : PyDT)
    (hdate : r.date = some p) (hv : ValidDT p.dt) :
    (r.recurring_type = some RecType.yearly →
      ∃ q : PyDT, nextDateR r = some q ∧ q.tzOffsetMin = p.tzOffsetMin ∧
        q.dt.year = p.dt.year + 1 ∧ q.dt.month = p.dt.month ∧
        q.dt.hour = p.dt.hour ∧ q.dt.minute = p.dt.minute ∧ ValidDT q.dt ∧
        (p.dt.day ≤ monthLen (p.dt.year + 1) p.dt.month → q.dt.day = p.dt.day) ∧
        (monthLen (p.dt.year + 1) p.dt.month < p.dt.day →
          q.dt.day = monthLen (p.dt.year + 1) p.dt.month)) ∧
    (r.recurring_type = some RecType.monthly →
      ∃ q : PyDT, nextDateR r = some q ∧ q.tzOffsetMin = p.tzOffsetMin ∧
        12 * q.dt.year + q.dt.month = 12 * p.dt.year + p.dt.month + 1 ∧
        q.dt.hour = p.dt.hour ∧ q.dt.minute = p.dt.minute ∧ ValidDT q.dt ∧
        (p.dt.day ≤ monthLen q.dt.year q.dt.month → q.dt.day = p.dt.day) ∧
        (monthLen q.dt.year q.dt.month < p.dt.day →
          q.dt.day = monthLen q.dt.year q.dt.month)) ∧
    (r.recurring_type = some RecType.weekly →
      ∃ q : PyDT, nextDateR r = some q ∧ q.tzOffsetMin = p.tzOffsetMin ∧
        toOrd q.dt = toOrd p.dt + 7 ∧
        q.dt.hour = p.dt.hour ∧ q.dt.minute = p.dt.minute ∧ ValidDT q.dt) ∧
    addMonths1 ⟨2025, 1, 31, 10, 0⟩ = ⟨2025, 2, 28, 10, 0⟩ ∧
    addYears1 ⟨2024, 2, 29, 8, 0⟩ = ⟨2025, 2, 28, 8, 0⟩ := by
  obtain ⟨hy, hm1, hm2, hd1, hd2, hh, hmin⟩ := hv
  refine ⟨?_, ?_, ?_, by decide, by decide⟩
  · intro hrt
    refine ⟨⟨addYears1 p.dt, p.tzOffsetMin⟩, by simp [nextDateR, hdate, hrt], rfl,
      rfl, rfl, rfl, rfl, validDT_addYears1 p.dt ⟨hy, hm1, hm2, hd1, hd2, hh, hmin⟩, ?_, ?_⟩
    · show p.dt.day ≤ monthLen (p.dt.year + 1) p.dt.month →
        min (monthLen (p.dt.year + 1) p.dt.month) p.dt.day = p.dt.day
      intro hle
      omega
    · show monthLen (p.dt.year + 1) p.dt.month < p.dt.day →
        min (monthLen (p.dt.year + 1) p.dt.month) p.dt.day = monthLen (p.dt.year + 1) p.dt.month
      intro hlt
      omega
  · intro hrt
    have hvq := validDT_addMonths1 p.dt ⟨hy, hm1, hm2, hd1, hd2, hh, hmin⟩
    by_cases hm : p.dt.month = 12
    · have hq : addMonths1 p.dt =
          ⟨p.dt.year + 1, 1, min (monthLen (p.dt.year + 1) 1) p.dt.day,
            p.dt.hour, p.dt.minute⟩ := by
        rw [addMonths1, if_pos hm]
      refine ⟨⟨addMonths1 p.dt, p.tzOffsetMin⟩, by simp [nextDateR, hdate, hrt], rfl,
        ?_, ?_, ?_, hvq, ?_, ?_⟩
      · rw [hq]
        show 12 * (p.dt.year + 1) + 1 = 12 * p.dt.year + p.dt.month + 1
        omega
      · rw [hq]
      · rw [hq]
      · rw [hq]
        show p.dt.day ≤ monthLen (p.dt.year + 1) 1 →
          min (monthLen (p.dt.year + 1) 1) p.dt.day = p.dt.day
        intro hle
        omega
      · rw [hq]
        show monthLen (p.dt.year + 1) 1 < p.dt.day →
          min (monthLen (p.dt.year + 1) 1) p.dt.day = monthLen (p.dt.year + 1) 1
        intro hlt
        omega
    · have hq : addMonths1 p.dt =
          ⟨p.dt.year, p.dt.month + 1, min (monthLen p.dt.year (p.dt.month + 1)) p.dt.day,
            p.dt.hour, p.dt.minute⟩ := by
        rw [addMonths1, if_neg hm]
      refine ⟨⟨addMonths1 p.dt, p.tzOffsetMin⟩, by simp [nextDateR, hdate, hrt], rfl,
        ?_, ?_, ?_, hvq, ?_, ?_⟩
      · rw [hq]
        show 12 * p.dt.year + (p.dt.month + 1) = 12 * p.dt.year + p.dt.month + 1
        omega
      · rw [hq]
      · rw [hq]
      · rw [hq]
        show p.dt.day ≤ monthLen p.dt.year (p.dt.month + 1) →
          min (monthLen p.dt.year (p.dt.month + 1)) p.dt.day = p.dt.day
        intro hle
        omega
      · rw [hq]
        show monthLen p.dt.year (p.dt.month + 1) < p.dt.day →
          min (monthLen p.dt.year (p.dt.month + 1)) p.dt.day = monthLen p.dt.year (p.dt.month + 1)
        intro hlt
        omega
  · intro hrt
    obtain ⟨h7, hvq, hhq, hmq⟩ := toOrd_addWeeks1 p.dt ⟨hy, hm1, hm2, hd1, hd2, hh, hmin⟩
    have hnd : nextDateR r = some ⟨addWeeks1 p.dt, p.tzOffsetMin⟩ := by
      unfold nextDateR
      rw [hdate, hrt]
    refine ⟨⟨addWeeks1 p.dt, p.tzOffsetMin⟩, hnd, ?_, ?_, ?_, ?_, ?_⟩
    · rw [pydt_tz]
    · rw [pydt_dt]
      exact h7
    · rw [pydt_dt]
      exact hhq
    · rw [pydt_dt]
      exact hmq
    · rw [pydt_dt]
      exact hvq

/-- Witness for C2 at the weekly reminder 2025-01-31T10:00 (offset +04:37). -/
theorem C2_successor_timestamps_witness :
    ∃ q : PyDT,
      nextDateR
        { id := 1, user_id := 1, title := some "t",
          date := some ⟨⟨2025, 1, 31, 10, 0⟩, some 277⟩,
          is_recurring := true, recurring_type := some RecType.weekly,
          is_notified := false, chain := 1, parent := none } = some q ∧
      q.tzOffsetMin = some 277 ∧ toOrd q.dt = toOrd ⟨2025, 1, 31, 10, 0⟩ + 7 ∧
      q.dt.hour = 10 ∧ q.dt.minute = 0 ∧ ValidDT q.dt := by
  have h := (C2_successor_timestamps
    { id := 1, user_id := 1, title := some "t",
      date := some ⟨⟨2025, 1, 31, 10, 0⟩, some 277⟩,
      is_recurring := true, recurring_type := some RecType.weekly,
      is_notified := false, chain := 1, parent := none }
    ⟨⟨2025, 1, 31, 10, 0⟩, some 277⟩ rfl (by decide)).2.2.1 rfl
  exact h

/-! ## Dispatcher lemmas -/

theorem wf_unique {db : BotDB} (h : WFdb db) {x y : Reminder}
    (hx : x ∈ db.reminders) (hy : y ∈ db.reminders) (hid : x.id = y.id) : x = y := by
  by_contra hne
  have hsym : Symmetric (fun a b : Reminder => a.id ≠ b.id) := by
    intro a b hab he
    exact hab he.symm
  exact h.2.forall hsym hx hy hne hid

theorem mark_mem_of_ne {rs : List Reminder} {i : Nat} {x : Reminder}
    (hx : x ∈ rs) (hne : x.id ≠ i) : x ∈ markNotified rs i := by
  unfold markNotified
  exact List.mem_map.mpr ⟨x, hx, by rw [if_neg hne]⟩

theorem mark_mem_of_notified {rs : List Reminder} {i : Nat} {x : Reminder}
    (hx : x ∈ rs) (hn : x.is_notified = true) : x ∈ markNotified rs i := by
  unfold markNotified
  refine List.mem_map.mpr ⟨x, hx, ?_⟩
  by_cases h : x.id = i
  · rw [if_pos h]
    cases x
    simp_all
  · rw [if_neg h]

theorem mark_marked_mem {rs : List Reminder} {i : Nat} {x : Reminder}
    (hx : x ∈ rs) (hid : x.id = i) : { x with is_notified := true } ∈ markNotified rs i := by
  unfold markNotified
  exact List.mem_map.mpr ⟨x, hx, by rw [if_pos hid]⟩

theorem mem_mark_elim {rs : List Reminder} {i : Nat} {y : Reminder}
    (hy : y ∈ markNotified rs i) :
    ∃ x ∈ rs, y = x ∨ (x.id = i ∧ y = { x with is_notified := true }) := by
  obtain ⟨x, hx, hfx⟩ := List.mem_map.mp hy
  refine ⟨x, hx, ?_⟩
  by_cases h : x.id = i
  · rw [if_pos h] at hfx
    exact Or.inr ⟨h, hfx.symm⟩
  · rw [if_neg h] at hfx
    exact Or.inl hfx.symm

theorem mark_length (rs : List Reminder) (i : Nat) :
    (markNotified rs i).length = rs.length := by
  unfold markNotified
  exact List.length_map rs _

theorem mark_f_id (i : Nat) (x : Reminder) :
    (if x.id = i then { x with is_notified := true } else x).id = x.id := by
  split <;> rfl

theorem mark_pairwise {rs : List Reminder} {i : Nat}
    (h : rs.Pairwise (fun a b => a.id ≠ b.id)) :
    (markNotified rs i).Pairwise (fun a b => a.id ≠ b.id) := by
  unfold markNotified
  rw [List.pairwise_map]
  refine h.imp ?_
  intro a b hab he
  rw [mark_f_id, mark_f_id] at he
  exact hab he

theorem cnt_mark_le (c : Nat) (rs : List Reminder) (i : Nat) :
    cntChain c (markNotified rs i) ≤ cntChain c rs := by
  unfold cntChain markNotified
  rw [List.countP_map]
  refine List.countP_mono_left ?_
  intro x _ hpx
  by_cases h : x.id = i
  · rw [Function.comp_apply, if_pos h] at hpx
    simp at hpx
  · rwa [Function.comp_apply, if_neg h] at hpx

theorem cnt_cons (c : Nat) (x : Reminder) (t : List Reminder) :
    cntChain c (x :: t) = cntChain c t + chainWeight c x := by
  unfold cntChain chainWeight
  simp [List.countP_cons]

theorem mark_cons (i : Nat) (a : Reminder) (t : List Reminder) :
    markNotified (a :: t) i =
      (if a.id = i then { a with is_notified := true } else a) :: markNotified t i := rfl

theorem chainWeight_mark_le (c i : Nat) (x : Reminder) :
    chainWeight c (if x.id = i then { x with is_notified := true } else x) ≤ chainWeight c x := by
  by_cases h : x.id = i
  · rw [if_pos h]
    unfold chainWeight
    simp
  · rw [if_neg h]

theorem cnt_mark_lt {c : Nat} {rs : List Reminder} {i : Nat} {r : Reminder}
    (hr : r ∈ rs) (hid : r.id = i) (hn : r.is_notified = false) (hc : r.chain = c) :
    cntChain c (markNotified rs i) < cntChain c rs := by
  induction rs with
  | nil => cases hr
  | cons a t ih =>
    rw [mark_cons, cnt_cons, cnt_cons]
    rcases List.mem_cons.mp hr with rfl | hrt
    · rw [if_pos hid]
      have h1 := cnt_mark_le c t i
      have h2 : chainWeight c ({ r with is_notified := true } : Reminder) = 0 := by
        unfold chainWeight
        simp
      have h3 : chainWeight c r = 1 := by
        unfold chainWeight
        simp [hc, hn]
      omega
    · have h2 := ih hrt
      have h3 := chainWeight_mark_le c i a
      omega

theorem cnt_append (c : Nat) (rs : List Reminder) (x : Reminder) :
    cntChain c (rs ++ [x]) = cntChain c rs + chainWeight c x := by
  unfold cntChain chainWeight
  rw [List.countP_append]
  simp [List.countP_cons]

theorem processOne_shape (deliver : Reminder → Bool) (db : BotDB) (r : Reminder) :
    ((db.users.find? (fun u => u.id == r.user_id) = none ∨ deliver r = false) ∧
      processOne deliver db r = db) ∨
    (deliver r = true ∧
      processOne deliver db r = { db with reminders := markNotified db.reminders r.id }) ∨
    (deliver r = true ∧ r.is_recurring = true ∧
      (db.users.find? (fun u => u.id == r.user_id)).isSome ∧
      ∃ nd, nextDateR r = some nd ∧
        processOne deliver db r =
          { db with reminders := markNotified db.reminders r.id ++ [mkSucc r nd db.nextRemId],
                    nextRemId := db.nextRemId + 1 }) := by
  unfold processOne
  cases hu : db.users.find? (fun u => u.id == r.user_id) with
  | none => exact Or.inl ⟨Or.inl rfl, rfl⟩
  | some u =>
    by_cases hd : deliver r = true
    · rw [if_pos hd]
      by_cases hrec : r.is_recurring = true
      · rw [if_pos hrec]
        cases hnd : nextDateR r with
        | none => exact Or.inr (Or.inl ⟨hd, rfl⟩)
        | some nd => exact Or.inr (Or.inr ⟨hd, hrec, by simp, nd, rfl, rfl⟩)
      · rw [if_neg hrec]
        exact Or.inr (Or.inl ⟨hd, rfl⟩)
    · rw [if_neg hd]
      exact Or.inl ⟨Or.inr (by simpa using hd), rfl⟩

theorem processOne_noop {deliver : Reminder → Bool} {db : BotDB} {r : Reminder}
    (h : db.users.find? (fun u => u.id == r.user_id) = none ∨ deliver r = false) :
    processOne deliver db r = db := by
  unfold processOne
  cases hu : db.users.find? (fun u => u.id == r.user_id) with
  | none => rfl
  | some u =>
    rcases h with h | h
    · rw [hu] at h
      cases h
    · rw [if_neg (by simp [h])]

theorem processOne_users (deliver : Reminder → Bool) (db : BotDB) (r : Reminder) :
    (processOne deliver db r).users = db.users := by
  rcases processOne_shape deliver db r with ⟨_, he⟩ | ⟨_, he⟩ | ⟨_, _, _, nd, _, he⟩ <;>
    rw [he]

theorem processOne_nextId_le (deliver : Reminder → Bool) (db : BotDB) (r : Reminder) :
    db.nextRemId ≤ (processOne deliver db r).nextRemId := by
  rcases processOne_shape deliver db r with ⟨_, he⟩ | ⟨_, he⟩ | ⟨_, _, _, nd, _, he⟩ <;>
    rw [he] <;> simp

theorem processOne_keeps {deliver : Reminder → Bool} {db : BotDB} {r x : Reminder}
    (hx : x ∈ db.reminders) (hne : x.id ≠ r.id) :
    x ∈ (processOne deliver db r).reminders := by
  rcases processOne_shape deliver db r with ⟨_, he⟩ | ⟨_, he⟩ | ⟨_, _, _, nd, _, he⟩ <;> rw [he]
  · exact hx
  · exact mark_mem_of_ne hx hne
  · exact List.mem_append_left _ (mark_mem_of_ne hx hne)

theorem processOne_keeps_notified {deliver : Reminder → Bool} {db : BotDB} {r x : Reminder}
    (hx : x ∈ db.reminders) (hn : x.is_notified = true) :
    x ∈ (processOne deliver db r).reminders := by
  rcases processOne_shape deliver db r with ⟨_, he⟩ | ⟨_, he⟩ | ⟨_, _, _, nd, _, he⟩ <;> rw [he]
  · exact hx
  · exact mark_mem_of_notified hx hn
  · exact List.mem_append_left _ (mark_mem_of_notified hx hn)

theorem wf_processOne {deliver : Reminder → Bool} {db : BotDB} {r : Reminder}
    (h : WFdb db) : WFdb (processOne deliver db r) := by
  obtain ⟨hlt, hpw⟩ := h
  have hmark_lt : ∀ y ∈ markNotified db.reminders r.id, y.id < db.nextRemId := by
    intro y hy
    obtain ⟨x, hx, hcase⟩ := mem_mark_elim hy
    rcases hcase with rfl | ⟨_, rfl⟩
    · exact hlt _ hx
    · have := hlt _ hx
      simpa using this
  rcases processOne_shape deliver db r with ⟨_, he⟩ | ⟨_, he⟩ | ⟨_, _, _, nd, _, he⟩ <;> rw [he]
  · exact ⟨hlt, hpw⟩
  · exact ⟨hmark_lt, mark_pairwise hpw⟩
  · constructor
    · intro y hy
      rcases List.mem_append.mp hy with hy | hy
      · have := hmark_lt y hy
        simp only []
        omega
      · rcases List.mem_singleton.mp hy with rfl
        simp [mkSucc]
    · refine List.pairwise_append.mpr ⟨mark_pairwise hpw, List.pairwise_singleton _ _, ?_⟩
      intro y hy z hz
      rcases List.mem_singleton.mp hz with rfl
      have := hmark_lt y hy
      simp only [mkSucc]
      omega

theorem inv_processOne {deliver : Reminder → Bool} {db : BotDB} {r : Reminder}
    (hWF : WFdb db) (hr : r ∈ db.reminders) (hn : r.is_notified = false)
    (hinv : ChainInv db) : ChainInv (processOne deliver db r) := by
  intro c
  rcases processOne_shape deliver db r with ⟨_, he⟩ | ⟨_, he⟩ | ⟨_, _, _, nd, _, he⟩ <;> rw [he]
  · exact hinv c
  · exact le_trans (cnt_mark_le c _ _) (hinv c)
  · show cntChain c (markNotified db.reminders r.id ++ [mkSucc r nd db.nextRemId]) ≤ 1
    rw [cnt_append]
    by_cases hc : r.chain = c
    · have hlt := cnt_mark_lt hr rfl hn hc
      have hle := hinv c
      have hw : chainWeight c (mkSucc r nd db.nextRemId) ≤ 1 := by
        unfold chainWeight
        split <;> omega
      omega
    · have hw : chainWeight c (mkSucc r nd db.nextRemId) = 0 := by
        unfold chainWeight mkSucc
        simp [hc]
      have h1 := cnt_mark_le c db.reminders r.id
      have h2 := hinv c
      omega

theorem isDue_not_notified {now : Int} {x : Reminder} (h : isDue now x = true) :
    x.is_notified = false := by
  unfold isDue at h
  cases hd : x.date with
  | none =>
    rw [hd] at h
    cases h
  | some p =>
    rw [hd] at h
    simp at h
    exact h.2

theorem isDue_mono {now now2 : Int} {x : Reminder} (h : isDue now x = true)
    (hle : now ≤ now2) : isDue now2 x = true := by
  unfold isDue at h ⊢
  cases hd : x.date with
  | none =>
    rw [hd] at h
    simp at h
  | some p =>
    rw [hd] at h
    simp at h ⊢
    exact ⟨le_trans h.1 hle, h.2⟩

theorem fold_wf (deliver : Reminder → Bool) (L : List Reminder) :
    ∀ db : BotDB, WFdb db → WFdb (L.foldl (processOne deliver) db) := by
  induction L with
  | nil =>
    intro db h
    exact h
  | cons r t ih =>
    intro db h
    exact ih _ (wf_processOne h)

theorem fold_users (deliver : Reminder → Bool) (L : List Reminder) :
    ∀ db : BotDB, (L.foldl (processOne deliver) db).users = db.users := by
  induction L with
  | nil =>
    intro db
    rfl
  | cons r t ih =>
    intro db
    rw [List.foldl_cons, ih, processOne_users]

theorem fold_nextId_le (deliver : Reminder → Bool) (L : List Reminder) :
    ∀ db : BotDB, db.nextRemId ≤ (L.foldl (processOne deliver) db).nextRemId := by
  induction L with
  | nil =>
    intro db
    exact le_refl _
  | cons r t ih =>
    intro db
    exact le_trans (processOne_nextId_le deliver db r) (ih _)

theorem fold_keeps_notified (deliver : Reminder → Bool) (L : List Reminder) :
    ∀ (db : BotDB) (x : Reminder), x ∈ db.reminders → x.is_notified = true →
      x ∈ (L.foldl (processOne deliver) db).reminders := by
  induction L with
  | nil =>
    intro db x hx _
    exact hx
  | cons r t ih =>
    intro db x hx hn
    exact ih _ x (processOne_keeps_notified hx hn) hn

theorem fold_keeps_failed (deliver : Reminder → Bool) (L : List Reminder) :
    ∀ (db : BotDB) (rf : Reminder), rf ∈ db.reminders →
      (∀ x ∈ L, x.id = rf.id → deliver x = false) →
      rf ∈ (L.foldl (processOne deliver) db).reminders := by
  induction L with
  | nil =>
    intro db rf h _
    exact h
  | cons a t ih =>
    intro db rf h hall
    refine ih _ rf ?_ ?_
    · by_cases hid : a.id = rf.id
      · rw [processOne_noop (Or.inr (hall a (List.mem_cons_self a t) hid))]
        exact h
      · exact processOne_keeps h (fun he => hid he.symm)
    · intro x hx hxid
      exact hall x (List.mem_cons_of_mem a hx) hxid

theorem fold_inv (deliver : Reminder → Bool) (L : List Reminder) :
    ∀ db : BotDB, WFdb db → ChainInv db →
      (∀ x ∈ L, x ∈ db.reminders ∧ x.is_notified = false) →
      L.Pairwise (fun a b => a.id ≠ b.id) →
      ChainInv (L.foldl (processOne deliver) db) := by
  induction L with
  | nil =>
    intro db _ hinv _ _
    exact hinv
  | cons r t ih =>
    intro db hWF hinv h2 hpw
    obtain ⟨hrmem, hrn⟩ := h2 r (List.mem_cons_self r t)
    refine ih _ (wf_processOne hWF) (inv_processOne hWF hrmem hrn hinv) ?_
      (List.Pairwise.of_cons hpw)
    intro x hx
    obtain ⟨hxmem, hxn⟩ := h2 x (List.mem_cons_of_mem r hx)
    have hxid : x.id ≠ r.id := (Ne.symm ((List.pairwise_cons.mp hpw).1 x hx))
    exact ⟨processOne_keeps hxmem hxid, hxn⟩

theorem run_wf {deliver : Reminder → Bool} {now : Int} {db : BotDB} (h : WFdb db) :
    WFdb (runDispatcher deliver now db) :=
  fold_wf deliver _ db h

theorem run_inv {deliver : Reminder → Bool} {now : Int} {db : BotDB}
    (hWF : WFdb db) (hinv : ChainInv db) : ChainInv (runDispatcher deliver now db) := by
  unfold runDispatcher
  refine fold_inv deliver _ db hWF hinv ?_ ?_
  · intro x hx
    exact ⟨List.mem_of_mem_filter hx, isDue_not_notified (List.of_mem_filter hx)⟩
  · exact List.Pairwise.sublist (List.filter_sublist _) hWF.2

theorem reach_wf_inv {db0 db : BotDB} (hre : Reach db0 db) (hWF : WFdb db0)
    (hinv : ChainInv db0) : WFdb db ∧ ChainInv db := by
  induction hre with
  | refl => exact ⟨hWF, hinv⟩
  | step deliver now _ ih =>
    obtain ⟨h1, h2⟩ := ih
    exact ⟨run_wf h1, run_inv h1 h2⟩

theorem nextDateR_none {r : Reminder} (h : r.recurring_type = none) :
    nextDateR r = none := by
  unfold nextDateR
  rw [h]
  cases hd : r.date <;> rfl

theorem processOne_nonrec {deliver : Reminder → Bool} {db : BotDB} {r : Reminder}
    (hrt : r.recurring_type = none) :
    (processOne deliver db r).reminders.length = db.reminders.length ∧
    ((∀ x ∈ db.reminders, x.recurring_type = none) →
      ∀ x ∈ (processOne deliver db r).reminders, x.recurring_type = none) := by
  rcases processOne_shape deliver db r with ⟨_, he⟩ | ⟨_, he⟩ | ⟨_, _, _, nd, hnd, _⟩
  · rw [he]
    exact ⟨rfl, fun h => h⟩
  · rw [he]
    constructor
    · exact mark_length _ _
    · intro h y hy
      obtain ⟨x, hx, hcase⟩ := mem_mark_elim hy
      rcases hcase with rfl | ⟨_, rfl⟩
      · exact h _ hx
      · have := h _ hx
        simpa using this
  · rw [nextDateR_none hrt] at hnd
    cases hnd

theorem fold_nonrec (deliver : Reminder → Bool) (L : List Reminder) :
    ∀ db : BotDB, (∀ x ∈ db.reminders, x.recurring_type = none) →
      (∀ x ∈ L, x.recurring_type = none) →
      ((L.foldl (processOne deliver) db).reminders.length = db.reminders.length ∧
        ∀ x ∈ (L.foldl (processOne deliver) db).reminders, x.recurring_type = none) := by
  induction L with
  | nil =>
    intro db hall _
    exact ⟨rfl, hall⟩
  | cons r t ih =>
    intro db hall hL
    obtain ⟨hlen, hpres⟩ := @processOne_nonrec deliver db r
      (hL r (List.mem_cons_self r t))
    obtain ⟨hlen2, hpres2⟩ := ih _ (hpres hall) (fun x hx => hL x (List.mem_cons_of_mem r hx))
    exact ⟨hlen2.trans hlen, hpres2⟩

theorem run_nonrec {deliver : Reminder → Bool} {now : Int} {db : BotDB}
    (hall : ∀ x ∈ db.reminders, x.recurring_type = none) :
    (runDispatcher deliver now db).reminders.length = db.reminders.length ∧
    ∀ x ∈ (runDispatcher deliver now db).reminders, x.recurring_type = none := by
  unfold runDispatcher
  exact fold_nonrec deliver _ db hall (fun x hx => hall x (List.mem_of_mem_filter hx))

theorem reach_nonrec {db0 db : BotDB} (hre : Reach db0 db)
    (hall : ∀ x ∈ db0.reminders, x.recurring_type = none) :
    db.reminders.length = db0.reminders.length ∧
    ∀ x ∈ db.reminders, x.recurring_type = none := by
  induction hre with
  | refl => exact ⟨rfl, hall⟩
  | step deliver now _ ih =>
    obtain ⟨h1, h2⟩ := ih
    obtain ⟨h3, h4⟩ := run_nonrec h2
    exact ⟨h3.trans h1, h4⟩

theorem trace_refl {deliver : Reminder → Bool} {db0 : BotDB} (hWF : WFdb db0) :
    TraceRun deliver db0 db0 := by
  intro r' hr'
  constructor
  · intro _
    exact ⟨r', hr', rfl, Or.inl rfl⟩
  · intro hge
    have := hWF.1 r' hr'
    omega

theorem fold_trace (deliver : Reminder → Bool) (L : List Reminder) :
    ∀ db0 db : BotDB, WFdb db0 → WFdb db → db0.nextRemId ≤ db.nextRemId →
      (∀ x ∈ L, x ∈ db0.reminders ∧ x ∈ db.reminders ∧ x.is_notified = false) →
      L.Pairwise (fun a b => a.id ≠ b.id) →
      TraceRun deliver db0 db → TraceRun deliver db0 (L.foldl (processOne deliver) db) := by
  induction L with
  | nil =>
    intro db0 db _ _ _ _ _ ht
    exact ht
  | cons r t ih =>
    intro db0 db hWF0 hWF hle h2 hpw ht
    obtain ⟨hr0, hrdb, hrn⟩ := h2 r (List.mem_cons_self r t)
    have hstep : TraceRun deliver db0 (processOne deliver db r) := by
      rcases processOne_shape deliver db r with ⟨_, he⟩ | ⟨hd, he⟩ | ⟨hd, hrec, hus, nd, hnd, he⟩
      · rw [he]
        exact ht
      · rw [he]
        intro y hy
        obtain ⟨x, hx, hcase⟩ := mem_mark_elim hy
        rcases hcase with rfl | ⟨hxid, rfl⟩
        · obtain ⟨hc1, hc2⟩ := ht _ hx
          refine ⟨hc1, ?_⟩
          intro hge
          obtain ⟨hn, hrec', rr, hrr0, hpar, hrrn, hch, hdel, hmem⟩ := hc2 hge
          exact ⟨hn, hrec', rr, hrr0, hpar, hrrn, hch, hdel, mark_mem_of_notified hmem rfl⟩
        · have hxr : x = r := wf_unique hWF hx hrdb hxid
          subst hxr
          constructor
          · intro _
            exact ⟨x, hr0, rfl, Or.inr rfl⟩
          · intro hge
            have hlt := hWF0.1 x hr0
            have hyid : ({ x with is_notified := true } : Reminder).id = x.id := rfl
            exfalso
            omega
      · rw [he]
        intro y hy
        rcases List.mem_append.mp hy with hy | hy
        · obtain ⟨x, hx, hcase⟩ := mem_mark_elim hy
          rcases hcase with rfl | ⟨hxid, rfl⟩
          · obtain ⟨hc1, hc2⟩ := ht _ hx
            refine ⟨hc1, ?_⟩
            intro hge
            obtain ⟨hn, hrec', rr, hrr0, hpar, hrrn, hch, hdel, hmem⟩ := hc2 hge
            exact ⟨hn, hrec', rr, hrr0, hpar, hrrn, hch, hdel,
              List.mem_append_left _ (mark_mem_of_notified hmem rfl)⟩
          · have hxr : x = r := wf_unique hWF hx hrdb hxid
            subst hxr
            constructor
            · intro _
              exact ⟨x, hr0, rfl, Or.inr rfl⟩
            · intro hge
              have hlt := hWF0.1 x hr0
              have hyid : ({ x with is_notified := true } : Reminder).id = x.id := rfl
              exfalso
              omega
        · rcases List.mem_singleton.mp hy with rfl
          constructor
          · intro hlt
            have hid : (mkSucc r nd db.nextRemId).id = db.nextRemId := rfl
            exfalso
            omega
          · intro _
            exact ⟨rfl, hrec, r, hr0, rfl, hrn, rfl, hd,
              List.mem_append_left _ (mark_marked_mem hrdb rfl)⟩
    refine ih db0 (processOne deliver db r) hWF0 (wf_processOne hWF)
      (le_trans hle (processOne_nextId_le deliver db r)) ?_ (List.Pairwise.of_cons hpw) hstep
    intro x hx
    obtain ⟨hx0, hxdb, hxn⟩ := h2 x (List.mem_cons_of_mem r hx)
    have hxid : x.id ≠ r.id := Ne.symm ((List.pairwise_cons.mp hpw).1 x hx)
    exact ⟨hx0, processOne_keeps hxdb hxid, hxn⟩

theorem run_trace {deliver : Reminder → Bool} {now : Int} {db : BotDB} (hWF : WFdb db) :
    TraceRun deliver db (runDispatcher deliver now db) := by
  unfold runDispatcher
  refine fold_trace deliver _ db db hWF hWF (le_refl _) ?_
    (List.Pairwise.sublist (List.filter_sublist _) hWF.2) (trace_refl hWF)
  intro x hx
  exact ⟨List.mem_of_mem_filter hx, List.mem_of_mem_filter hx,
    isDue_not_notified (List.of_mem_filter hx)⟩

theorem processOne_delivers {deliver : Reminder → Bool} {db : BotDB} {r : Reminder}
    (hus : (db.users.find? (fun u => u.id == r.user_id)).isSome) (hd : deliver r = true) :
    ∃ rs2, (processOne deliver db r).reminders = markNotified db.reminders r.id ++ rs2 := by
  rcases processOne_shape deliver db r with ⟨hc, he⟩ | ⟨_, he⟩ | ⟨_, _, _, nd, _, he⟩
  · rcases hc with hc | hc
    · rw [hc] at hus
      cases hus
    · rw [hc] at hd
      cases hd
  · refine ⟨[], ?_⟩
    rw [he]
    simp
  · exact ⟨[mkSucc r nd db.nextRemId], by rw [he]⟩

theorem fold_marks (deliver : Reminder → Bool) (L : List Reminder) :
    ∀ (db : BotDB) (r2 : Reminder), r2 ∈ L → WFdb db →
      (∀ x ∈ L, x ∈ db.reminders ∧ x.is_notified = false) →
      L.Pairwise (fun a b => a.id ≠ b.id) →
      deliver r2 = true → (db.users.find? (fun u => u.id == r2.user_id)).isSome →
      { r2 with is_notified := true } ∈ (L.foldl (processOne deliver) db).reminders := by
  induction L with
  | nil =>
    intro db r2 h
    cases h
  | cons a t ih =>
    intro db r2 hr2 hWF h2 hpw hdel hus
    rcases List.mem_cons.mp hr2 with rfl | hr2t
    · obtain ⟨hadb, _⟩ := h2 r2 (List.mem_cons_self r2 t)
      obtain ⟨rs2, hrs2⟩ := processOne_delivers hus hdel
      have hmem1 : { r2 with is_notified := true } ∈ (processOne deliver db r2).reminders := by
        rw [hrs2]
        exact List.mem_append_left _ (mark_marked_mem hadb rfl)
      exact fold_keeps_notified deliver t _ _ hmem1 rfl
    · refine ih _ r2 hr2t (wf_processOne hWF) ?_ (List.Pairwise.of_cons hpw) hdel ?_
      · intro x hx
        obtain ⟨hxdb, hxn⟩ := h2 x (List.mem_cons_of_mem a hx)
        have hxid : x.id ≠ a.id := Ne.symm ((List.pairwise_cons.mp hpw).1 x hx)
        exact ⟨processOne_keeps hxdb hxid, hxn⟩
      · rw [processOne_users]
        exact hus

/-- C1. At-most-one-unnotified-occurrence: starting from a freshly created
reminder (`is_notified = false`), every database reachable by repeated
dispatcher runs has at most one unnotified row per chain; a reminder of
recurrence kind `none` never gains a successor (its chain stays a single
row forever); and in any one further run, every newly inserted row is an
unnotified recurring successor created in the very step that set its
parent's notified flag (the parent was unnotified before the run and is
notified in the result). -/
theorem C1_chain_invariant (r0 : Reminder) (users0 : List DbUser) (nU : Nat) (db : BotDB)
    (h0 : r0.is_notified = false)
    (hreach : Reach ⟨users0, [r0], r0.id + 1, nU⟩ db) :
    (∀ c : Nat, cntChain c db.reminders ≤ 1) ∧
    (r0.recurring_type = none → db.reminders.length = 1) ∧
    (∀ (deliver : Reminder → Bool) (now : Int),
      TraceRun deliver db (runDispatcher deliver now db)) := by
  have hWF0 : WFdb ⟨users0, [r0], r0.id + 1, nU⟩ := by
    constructor
    · intro r hr
      rcases List.mem_singleton.mp hr with rfl
      exact Nat.lt_succ_self _
    · exact List.pairwise_singleton _ _
  have hinv0 : ChainInv ⟨users0, [r0], r0.id + 1, nU⟩ := by
    intro c
    show cntChain c [r0] ≤ 1
    rw [cnt_cons]
    have h1 : cntChain c ([] : List Reminder) = 0 := rfl
    have h2 : chainWeight c r0 ≤ 1 := by
      unfold chainWeight
      split <;> omega
    omega
  obtain ⟨hWF, hinv⟩ := reach_wf_inv hreach hWF0 hinv0
  refine ⟨hinv, ?_, fun deliver now => run_trace hWF⟩
  intro hrt
  have hall : ∀ x ∈ (⟨users0, [r0], r0.id + 1, nU⟩ : BotDB).reminders,
      x.recurring_type = none := by
    intro x hx
    rcases List.mem_singleton.mp hx with rfl
    exact hrt
  obtain ⟨hlen, _⟩ := reach_nonrec hreach hall
  simpa using hlen

/-- Witness for C1: a fresh weekly reminder after one dispatcher run with
successful delivery. -/
theorem C1_chain_invariant_witness :
    (∀ c : Nat, cntChain c (runDispatcher (fun _ => true) 2000000000
      ⟨[⟨1, 100, none, "A"⟩],
        [⟨1, 1, some "t", some ⟨⟨2025, 1, 1, 9, 0⟩, some 277⟩, true, some RecType.weekly,
          false, 1, none⟩], 2, 2⟩).reminders ≤ 1) ∧
    ((⟨1, 1, some "t", some ⟨⟨2025, 1, 1, 9, 0⟩, some 277⟩, true, some RecType.weekly,
        false, 1, none⟩ : Reminder).recurring_type = none →
      (runDispatcher (fun _ => true) 2000000000
        ⟨[⟨1, 100, none, "A"⟩],
          [⟨1, 1, some "t", some ⟨⟨2025, 1, 1, 9, 0⟩, some 277⟩, true, some RecType.weekly,
            false, 1, none⟩], 2, 2⟩).reminders.length = 1) ∧
    (∀ (deliver : Reminder → Bool) (now : Int),
      TraceRun deliver (runDispatcher (fun _ => true) 2000000000
        ⟨[⟨1, 100, none, "A"⟩],
          [⟨1, 1, some "t", some ⟨⟨2025, 1, 1, 9, 0⟩, some 277⟩, true, some RecType.weekly,
            false, 1, none⟩], 2, 2⟩)
        (runDispatcher deliver now (runDispatcher (fun _ => true) 2000000000
          ⟨[⟨1, 100, none, "A"⟩],
            [⟨1, 1, some "t", some ⟨⟨2025, 1, 1, 9, 0⟩, some 277⟩, true, some RecType.weekly,
              false, 1, none⟩], 2, 2⟩))) :=
  C1_chain_invariant
    ⟨1, 1, some "t", some ⟨⟨2025, 1, 1, 9, 0⟩, some 277⟩, true, some RecType.weekly,
      false, 1, none⟩
    [⟨1, 100, none, "A"⟩] 2 _ rfl
    (Reach.step (fun _ => true) 2000000000 (Reach.refl _))

/-- C3. A Notifier delivery failure for one due reminder leaves that
reminder's row unchanged (notified still false), inserts no successor for
it, does not abort the run (every other due reminder with successful
delivery and a present owner is notified), and the failed reminder is still
selected as due by any later scan. -/
theorem C3_notifier_failure (deliver : Reminder → Bool) (now : Int) (db : BotDB)
    (rf : Reminder) (hWF : WFdb db) (hmem : rf ∈ db.reminders)
    (hdue : isDue now rf = true) (hfail : deliver rf = false) :
    rf ∈ (runDispatcher deliver now db).reminders ∧
    (∀ r' ∈ (runDispatcher deliver now db).reminders,
      db.nextRemId ≤ r'.id → r'.parent ≠ some rf.id) ∧
    (∀ r2 ∈ db.reminders, isDue now r2 = true → r2.id ≠ rf.id → deliver r2 = true →
      (db.users.find? (fun u => u.id == r2.user_id)).isSome →
      { r2 with is_notified := true } ∈ (runDispatcher deliver now db).reminders) ∧
    (∀ now2 : Int, now ≤ now2 →
      rf ∈ (runDispatcher deliver now db).reminders.filter (isDue now2)) := by
  have hkeep : rf ∈ (runDispatcher deliver now db).reminders := by
    unfold runDispatcher
    refine fold_keeps_failed deliver _ db rf hmem ?_
    intro x hx hxid
    have hxdb := List.mem_of_mem_filter hx
    have hxrf : x = rf := wf_unique hWF hxdb hmem hxid
    rw [hxrf]
    exact hfail
  refine ⟨hkeep, ?_, ?_, ?_⟩
  · intro r' hr' hge hpar
    have ht := @run_trace deliver now db hWF
    obtain ⟨_, hc2⟩ := ht r' hr'
    obtain ⟨_, _, rr, hrr, hpar', _, _, hdel, _⟩ := hc2 hge
    rw [hpar] at hpar'
    have hid : rf.id = rr.id := by
      injection hpar'
    have hrrrf : rr = rf := wf_unique hWF hrr hmem hid.symm
    rw [hrrrf, hfail] at hdel
    cases hdel
  · intro r2 hr2 hdue2 hne2 hdel2 hus2
    unfold runDispatcher
    refine fold_marks deliver _ db r2 (List.mem_filter.mpr ⟨hr2, hdue2⟩) hWF ?_
      (List.Pairwise.sublist (List.filter_sublist _) hWF.2) hdel2 hus2
    intro x hx
    exact ⟨List.mem_of_mem_filter hx, isDue_not_notified (List.of_mem_filter hx)⟩
  · intro now2 hle2
    exact List.mem_filter.mpr ⟨hkeep, isDue_mono hdue hle2⟩

/-- Witness for C3: two due reminders, delivery fails for id 1 and
succeeds for id 2. -/
theorem C3_notifier_failure_witness :
    (⟨1, 1, some "x", some ⟨⟨2025, 1, 1, 9, 0⟩, some 277⟩, false, none, false, 1,
      none⟩ : Reminder) ∈
      (runDispatcher (fun r => r.id != 1) 2000000000
        ⟨[⟨1, 100, none, "A"⟩, ⟨2, 200, none, "B"⟩],
          [⟨1, 1, some "x", some ⟨⟨2025, 1, 1, 9, 0⟩, some 277⟩, false, none, false, 1, none⟩,
           ⟨2, 2, some "y", some ⟨⟨2025, 1, 1, 8, 0⟩, some 277⟩, false, none, false, 2, none⟩],
          3, 3⟩).reminders ∧
    (∀ r' ∈ (runDispatcher (fun r => r.id != 1) 2000000000
        ⟨[⟨1, 100, none, "A"⟩, ⟨2, 200, none, "B"⟩],
          [⟨1, 1, some "x", some ⟨⟨2025, 1, 1, 9, 0⟩, some 277⟩, false, none, false, 1, none⟩,
           ⟨2, 2, some "y", some ⟨⟨2025, 1, 1, 8, 0⟩, some 277⟩, false, none, false, 2, none⟩],
          3, 3⟩).reminders,
      3 ≤ r'.id → r'.parent ≠ some 1) ∧
    (∀ r2 ∈ ([⟨1, 1, some "x", some ⟨⟨2025, 1, 1, 9, 0⟩, some 277⟩, false, none, false, 1, none⟩,
        ⟨2, 2, some "y", some ⟨⟨2025, 1, 1, 8, 0⟩, some 277⟩, false, none, false, 2, none⟩] :
        List Reminder),
      isDue 2000000000 r2 = true → r2.id ≠ 1 → (r2.id != 1) = true →
      (([⟨1, 100, none, "A"⟩, ⟨2, 200, none, "B"⟩] : List DbUser).find?
        (fun u => u.id == r2.user_id)).isSome →
      { r2 with is_notified := true } ∈
        (runDispatcher (fun r => r.id != 1) 2000000000
          ⟨[⟨1, 100, none, "A"⟩, ⟨2, 200, none, "B"⟩],
            [⟨1, 1, some "x", some ⟨⟨2025, 1, 1, 9, 0⟩, some 277⟩, false, none, false, 1, none⟩,
             ⟨2, 2, some "y", some ⟨⟨2025, 1, 1, 8, 0⟩, some 277⟩, false, none, false, 2, none⟩],
            3, 3⟩).reminders) ∧
    (∀ now2 : Int, 2000000000 ≤ now2 →
      (⟨1, 1, some "x", some ⟨⟨2025, 1, 1, 9, 0⟩, some 277⟩, false, none, false, 1,
        none⟩ : Reminder) ∈
        (runDispatcher (fun r => r.id != 1) 2000000000
          ⟨[⟨1, 100, none, "A"⟩, ⟨2, 200, none, "B"⟩],
            [⟨1, 1, some "x", some ⟨⟨2025, 1, 1, 9, 0⟩, some 277⟩, false, none, false, 1, none⟩,
             ⟨2, 2, some "y", some ⟨⟨2025, 1, 1, 8, 0⟩, some 277⟩, false, none, false, 2, none⟩],
            3, 3⟩).reminders.filter (isDue now2)) :=
  C3_notifier_failure (fun r => r.id != 1) 2000000000
    ⟨[⟨1, 100, none, "A"⟩, ⟨2, 200, none, "B"⟩],
      [⟨1, 1, some "x", some ⟨⟨2025, 1, 1, 9, 0⟩, some 277⟩, false, none, false, 1, none⟩,
       ⟨2, 2, some "y", some ⟨⟨2025, 1, 1, 8, 0⟩, some 277⟩, false, none, false, 2, none⟩],
      3, 3⟩
    ⟨1, 1, some "x", some ⟨⟨2025, 1, 1, 9, 0⟩, some 277⟩, false, none, false, 1, none⟩
    (by constructor
        · intro r hr
          fin_cases hr <;> decide
        · decide)
    (by decide) (by decide) (by decide)

/-! ## Conversation-machine claims -/

/-- C6 counterexample. The claim says the cancel action clears all session
scratch; in the code the cancel branch only edits the message and returns
`MAIN_MENU`, leaving `context.user_data` untouched: with a working title
and a pending-delete id in scratch, cancel keeps them verbatim. -/
theorem C6_cancel_counterexample :
    (stepConv 1 ConvState.SET_DATE (Event.callback "cancel")
        ⟨some "t", none, none, none, some 5⟩ ⟨[], [], 1, 1⟩).scratch ≠ Scratch.empty ∧
    (stepConv 1 ConvState.SET_DATE (Event.callback "cancel")
        ⟨some "t", none, none, none, some 5⟩ ⟨[], [], 1, 1⟩).scratch =
      ⟨some "t", none, none, none, some 5⟩ := by
  decide

/-- C6 amended. In every state the cancel action transitions to `MAIN_MENU`
with the repository untouched but the session scratch retained verbatim;
the scratch is cleared only by the `/start` command (which also returns to
`MAIN_MENU`). -/
theorem C6_cancel_amended (uid : Nat) (st : ConvState) (sc : Scratch) (db : BotDB)
    (un : Option String) (fn : String) :
    stepConv uid st (Event.callback "cancel") sc db =
      ⟨ConvState.MAIN_MENU, sc, db, some ⟨cancelledText, mainMenuKb⟩⟩ ∧
    (stepConv uid st (Event.startCmd un fn) sc db).scratch = Scratch.empty ∧
    (stepConv uid st (Event.startCmd un fn) sc db).state = ConvState.MAIN_MENU := by
  exact ⟨rfl, rfl, rfl⟩

/-- C7 counterexample. The claim says the `no` action discards the
pending-delete id; the code's `no` branch leaves `user_data` untouched, so
the id survives. -/
theorem C7_no_counterexample :
    (stepConv 1 ConvState.CONFIRM_DELETE (Event.callback "no")
        ⟨none, none, none, none, some 3⟩ ⟨[], [], 1, 1⟩).scratch.delete_reminder_id =
      some 3 ∧
    (stepConv 1 ConvState.CONFIRM_DELETE (Event.callback "no")
        ⟨none, none, none, none, some 3⟩ ⟨[], [], 1, 1⟩).scratch.delete_reminder_id ≠
      none := by
  decide

/-- C7 amended. In `CONFIRM_DELETE` the `no` action leaves the targeted
reminder row and all repository state unchanged and returns to `MAIN_MENU`,
but retains (does not discard) the pending-delete id in the session
scratch. -/
theorem C7_no_amended (uid : Nat) (sc : Scratch) (db : BotDB) :
    stepConv uid ConvState.CONFIRM_DELETE (Event.callback "no") sc db =
      ⟨ConvState.MAIN_MENU, sc, db, some ⟨deleteCancelledText, mainMenuKb⟩⟩ := by
  rfl

/-- C8 counterexample. The claim says an unrecognized action leaves the
machine in its current state; the fall-through of `button_handler` returns
`MAIN_MENU`, so the token `foo` received in `CONFIRM_DELETE` moves the
session to `MAIN_MENU`. -/
theorem C8_unrecognized_counterexample :
    (stepConv 1 ConvState.CONFIRM_DELETE (Event.callback "foo")
        ⟨none, none, none, none, none⟩ ⟨[], [], 1, 1⟩).state = ConvState.MAIN_MENU ∧
    ConvState.MAIN_MENU ≠ ConvState.CONFIRM_DELETE := by
  decide

/-- C8 amended. An action token outside the recognized closed set (and not
of the `delete_` form) changes neither scratch nor repository and sends no
reply, but rather than remaining in the current state it transitions the
session to `MAIN_MENU` via the handler's fall-through return. -/
theorem C8_unrecognized_amended (uid : Nat) (st : ConvState) (sc : Scratch) (db : BotDB)
    (tok : String)
    (hnot : tok ∉ (["add_reminder", "list_reminders", "about", "cancel", "yearly",
      "monthly", "weekly", "once", "yes", "no", "back_to_list", "back_to_menu"] :
      List String))
    (hpre : tok.startsWith "delete_" = false) :
    stepConv uid st (Event.callback tok) sc db =
      ⟨ConvState.MAIN_MENU, sc, db, none⟩ := by
  have h1 : (tok == "add_reminder") = false := by
    simp only [beq_eq_false_iff_ne]
    intro h
    exact hnot (by rw [h]; simp)
  have h2 : (tok == "list_reminders") = false := by
    simp only [beq_eq_false_iff_ne]
    intro h
    exact hnot (by rw [h]; simp)
  have h3 : (tok == "about") = false := by
    simp only [beq_eq_false_iff_ne]
    intro h
    exact hnot (by rw [h]; simp)
  have h4 : (tok == "cancel") = false := by
    simp only [beq_eq_false_iff_ne]
    intro h
    exact hnot (by rw [h]; simp)
  have h5 : (tok == "yearly") = false := by
    simp only [beq_eq_false_iff_ne]
    intro h
    exact hnot (by rw [h]; simp)
  have h6 : (tok == "monthly") = false := by
    simp only [beq_eq_false_iff_ne]
    intro h
    exact hnot (by rw [h]; simp)
  have h7 : (tok == "weekly") = false := by
    simp only [beq_eq_false_iff_ne]
    intro h
    exact hnot (by rw [h]; simp)
  have h8 : (tok == "once") = false := by
    simp only [beq_eq_false_iff_ne]
    intro h
    exact hnot (by rw [h]; simp)
  have h9 : (tok == "yes") = false := by
    simp only [beq_eq_false_iff_ne]
    intro h
    exact hnot (by rw [h]; simp)
  have h10 : (tok == "no") = false := by
    simp only [beq_eq_false_iff_ne]
    intro h
    exact hnot (by rw [h]; simp)
  have h11 : (tok == "back_to_list") = false := by
    simp only [beq_eq_false_iff_ne]
    intro h
    exact hnot (by rw [h]; simp)
  have h12 : (tok == "back_to_menu") = false := by
    simp only [beq_eq_false_iff_ne]
    intro h
    exact hnot (by rw [h]; simp)
  simp only [stepConv, buttonHandler, yesGuard, h1, h2, h3, h4, h5, h6, h7, h8, h9, h10,
    h11, h12, hpre, if_false, Bool.false_eq_true, Bool.or_self, Bool.or_false,
    Bool.false_or, ite_false]

/-- Witness for C8 amended at the token `foo` in `SET_TIME`. -/
theorem C8_unrecognized_amended_witness :
    (("foo" : String) ∉ (["add_reminder", "list_reminders", "about", "cancel", "yearly",
      "monthly", "weekly", "once", "yes", "no", "back_to_list", "back_to_menu"] :
      List String)) ∧
    "foo".startsWith "delete_" = false ∧
    stepConv 1 ConvState.SET_TIME (Event.callback "foo")
        ⟨none, none, none, none, none⟩ ⟨[], [], 1, 1⟩ =
      ⟨ConvState.MAIN_MENU, ⟨none, none, none, none, none⟩, ⟨[], [], 1, 1⟩, none⟩ :=
  ⟨by decide, by decide,
    C8_unrecognized_amended 1 ConvState.SET_TIME ⟨none, none, none, none, none⟩
      ⟨[], [], 1, 1⟩ "foo" (by decide) (by decide)⟩

/-- C10. Confirming a pending delete with `yes` looks the row up by id
only: the row with that id is removed whoever owns it (the outcome does not
depend on the confirming user at all), an absent id leaves the repository
unchanged, and the session returns to `MAIN_MENU` either way. -/
theorem C10_delete_ignores_owner (uid uid2 : Nat) (sc : Scratch) (db : BotDB) (rid : Nat)
    (hp : sc.delete_reminder_id = some rid) (h0 : rid ≠ 0) :
    (stepConv uid ConvState.CONFIRM_DELETE (Event.callback "yes") sc db).state =
      ConvState.MAIN_MENU ∧
    (stepConv uid ConvState.CONFIRM_DELETE (Event.callback "yes") sc db).db.reminders =
      db.reminders.eraseP (fun r => r.id == rid) ∧
    ((∀ r ∈ db.reminders, r.id ≠ rid) →
      (stepConv uid ConvState.CONFIRM_DELETE (Event.callback "yes") sc db).db = db) ∧
    (stepConv uid2 ConvState.CONFIRM_DELETE (Event.callback "yes") sc db).db =
      (stepConv uid ConvState.CONFIRM_DELETE (Event.callback "yes") sc db).db := by
  obtain ⟨t0, d0, ir0, rt0, del0⟩ := sc
  have hp' : del0 = some rid := hp
  subst hp'
  have hb : (rid != 0) = true := by
    simpa using h0
  have e1 : ∀ u : Nat, stepConv u ConvState.CONFIRM_DELETE (Event.callback "yes")
      ⟨t0, d0, ir0, rt0, some rid⟩ db = deleteById rid ⟨t0, d0, ir0, rt0, some rid⟩ db := by
    intro u
    simp only [stepConv, buttonHandler, yesGuard, hb]
    rfl
  have e2 : ∀ (sc2 : Scratch) (db2 : BotDB), (deleteById rid sc2 db2).state =
      ConvState.MAIN_MENU := by
    intro sc2 db2
    unfold deleteById
    cases db2.reminders.find? (fun r => r.id == rid) <;> rfl
  refine ⟨by rw [e1 uid]; exact e2 _ _, ?_, ?_, by rw [e1 uid, e1 uid2]⟩
  · rw [e1 uid]
    unfold deleteById
    cases hf : db.reminders.find? (fun r => r.id == rid) with
    | some r => rfl
    | none =>
      have hnone : ∀ r ∈ db.reminders, ¬ (r.id == rid) = true := by
        intro r hr
        exact List.find?_eq_none.mp hf r hr
      show db.reminders = db.reminders.eraseP (fun r => r.id == rid)
      rw [List.eraseP_of_forall_not hnone]
  · intro hall
    rw [e1 uid]
    unfold deleteById
    have hf : db.reminders.find? (fun r => r.id == rid) = none := by
      rw [List.find?_eq_none]
      intro r hr
      simpa using hall r hr
    rw [hf]

/-- Witness for C10: user 5 confirms deletion of reminder 7, which belongs
to user 99; the row is deleted regardless. -/
theorem C10_delete_ignores_owner_witness :
    ((⟨none, none, none, none, some 7⟩ : Scratch).delete_reminder_id = some 7 ∧ 7 ≠ 0) ∧
    ((stepConv 5 ConvState.CONFIRM_DELETE (Event.callback "yes")
        ⟨none, none, none, none, some 7⟩
        ⟨[⟨99, 990, none, "O"⟩],
          [⟨7, 99, some "th", some ⟨⟨2025, 3, 3, 8, 0⟩, some 277⟩, false, none, false, 7,
            none⟩], 8, 100⟩).state = ConvState.MAIN_MENU ∧
      (stepConv 5 ConvState.CONFIRM_DELETE (Event.callback "yes")
        ⟨none, none, none, none, some 7⟩
        ⟨[⟨99, 990, none, "O"⟩],
          [⟨7, 99, some "th", some ⟨⟨2025, 3, 3, 8, 0⟩, some 277⟩, false, none, false, 7,
            none⟩], 8, 100⟩).db.reminders =
        ([⟨7, 99, some "th", some ⟨⟨2025, 3, 3, 8, 0⟩, some 277⟩, false, none, false, 7,
          none⟩] : List Reminder).eraseP (fun r => r.id == 7) ∧
      ((∀ r ∈ ([⟨7, 99, some "th", some ⟨⟨2025, 3, 3, 8, 0⟩, some 277⟩, false, none, false,
          7, none⟩] : List Reminder), r.id ≠ 7) →
        (stepConv 5 ConvState.CONFIRM_DELETE (Event.callback "yes")
          ⟨none, none, none, none, some 7⟩
          ⟨[⟨99, 990, none, "O"⟩],
            [⟨7, 99, some "th", some ⟨⟨2025, 3, 3, 8, 0⟩, some 277⟩, false, none, false, 7,
              none⟩], 8, 100⟩).db =
          ⟨[⟨99, 990, none, "O"⟩],
            [⟨7, 99, some "th", some ⟨⟨2025, 3, 3, 8, 0⟩, some 277⟩, false, none, false, 7,
              none⟩], 8, 100⟩) ∧
      (stepConv 6 ConvState.CONFIRM_DELETE (Event.callback "yes")
        ⟨none, none, none, none, some 7⟩
        ⟨[⟨99, 990, none, "O"⟩],
          [⟨7, 99, some "th", some ⟨⟨2025, 3, 3, 8, 0⟩, some 277⟩, false, none, false, 7,
            none⟩], 8, 100⟩).db =
        (stepConv 5 ConvState.CONFIRM_DELETE (Event.callback "yes")
          ⟨none, none, none, none, some 7⟩
          ⟨[⟨99, 990, none, "O"⟩],
            [⟨7, 99, some "th", some ⟨⟨2025, 3, 3, 8, 0⟩, some 277⟩, false, none, false, 7,
              none⟩], 8, 100⟩).db) :=
  ⟨⟨rfl, by decide⟩,
    C10_delete_ignores_owner 5 6 ⟨none, none, none, none, some 7⟩
      ⟨[⟨99, 990, none, "O"⟩],
        [⟨7, 99, some "th", some ⟨⟨2025, 3, 3, 8, 0⟩, some 277⟩, false, none, false, 7,
          none⟩], 8, 100⟩ 7 rfl (by decide)⟩

/-- C9. The list action renders the user's reminders in insertion order and
moves to `REMINDERS_LIST`, but the sent message carries only the
back-to-menu keyboard: the per-reminder delete keyboard the loop builds
(`perReminderDeleteKb`) is overwritten before sending, so no delete
affordance keyed by a reminder id ever reaches the user — contradicting the
claim (and leaving the delete/confirm flow unreachable from this screen).
Evaluated at a user with two reminders (ids 1 and 2). -/
theorem C9_list_discards_delete_keyboard :
    (stepConv 10 ConvState.MAIN_MENU (Event.callback "list_reminders") Scratch.empty
      ⟨[⟨1, 10, none, "U"⟩],
        [⟨1, 1, some "A", some ⟨⟨2025, 5, 15, 14, 30⟩, some 277⟩, false, none, false, 1,
          none⟩,
         ⟨2, 1, some "B", some ⟨⟨2025, 6, 1, 9, 0⟩, some 277⟩, true, some RecType.weekly,
          false, 2, none⟩], 3, 2⟩).state = ConvState.REMINDERS_LIST ∧
    (stepConv 10 ConvState.MAIN_MENU (Event.callback "list_reminders") Scratch.empty
      ⟨[⟨1, 10, none, "U"⟩],
        [⟨1, 1, some "A", some ⟨⟨2025, 5, 15, 14, 30⟩, some 277⟩, false, none, false, 1,
          none⟩,
         ⟨2, 1, some "B", some ⟨⟨2025, 6, 1, 9, 0⟩, some 277⟩, true, some RecType.weekly,
          false, 2, none⟩], 3, 2⟩).reply =
      some ⟨"📋 *Sizning eslatmalaringiz:*\n\n*1. A*\n📅 Sana: 15.05.2025\n🕒 Vaqt: 14:30\n🔄 Takrorlanish: Bir martalik\n\n--------------------\n\n*2. B*\n📅 Sana: 01.06.2025\n🕒 Vaqt: 09:00\n🔄 Takrorlanish: Har hafta\n",
        [["back_to_menu"]]⟩ ∧
    (∀ row ∈ ([["back_to_menu"]] : Keyboard), ∀ s ∈ row,
      s ≠ "delete_1" ∧ s ≠ "delete_2") ∧
    perReminderDeleteKb
      ⟨1, 1, some "A", some ⟨⟨2025, 5, 15, 14, 30⟩, some 277⟩, false, none, false, 1,
        none⟩ = [["delete_1"]] ∧
    perReminderDeleteKb
      ⟨2, 1, some "B", some ⟨⟨2025, 6, 1, 9, 0⟩, some 277⟩, true, some RecType.weekly,
        false, 2, none⟩ = [["delete_2"]] := by
  refine ⟨rfl, rfl, by decide, rfl, rfl⟩

/-- C4. The combined timestamp stored by `set_time` keeps the parsed
calendar day and hour:minute, but `.replace(tzinfo=TIMEZONE)` attaches the
pytz zone's LMT offset (+04:37) rather than Asia/Tashkent's +05:00, so the
stored value does not denote the expected calendar instant in the fixed
zone: for 15.05.2025 together with 14:30 the stored instant is 23 minutes
later than 2025-05-15T14:30+05:00 (09:53Z instead of 09:30Z). -/
theorem C4_fixed_zone_instant_bug :
    (stepConv 1 ConvState.SET_DATE (Event.message "15.05.2025") Scratch.empty
      ⟨[], [], 1, 1⟩).scratch.date = some ⟨⟨2025, 5, 15, 0, 0⟩, none⟩ ∧
    (stepConv 1 ConvState.SET_TIME (Event.message "14:30")
      ⟨none, some ⟨⟨2025, 5, 15, 0, 0⟩, none⟩, none, none, none⟩
      ⟨[], [], 1, 1⟩).scratch.date =
      some ⟨⟨2025, 5, 15, 14, 30⟩, some tashkentReplaceOffset⟩ ∧
    (stepConv 1 ConvState.SET_TIME (Event.message "14:30")
      ⟨none, some ⟨⟨2025, 5, 15, 0, 0⟩, none⟩, none, none, none⟩
      ⟨[], [], 1, 1⟩).state = ConvState.ADDING_REMINDER ∧
    instantUTC ⟨⟨2025, 5, 15, 14, 30⟩, some tashkentReplaceOffset⟩ ≠
      specFixedZoneInstant 2025 5 15 14 30 ∧
    instantUTC ⟨⟨2025, 5, 15, 14, 30⟩, some tashkentReplaceOffset⟩ =
      specFixedZoneInstant 2025 5 15 14 30 + 23 := by
  refine ⟨rfl, rfl, rfl, by decide, by decide⟩

/-! ## Equivalence of the strptime embedding with the declarative format
matchers -/

theorem tryAlts_nil {α : Type} (k : Nat → List Char → Option α) : tryAlts [] k = none := rfl

theorem tryAlts_singleton {α : Type} (v : Nat) (r : List Char)
    (k : Nat → List Char → Option α) : tryAlts [(v, r)] k = k v r := by
  unfold tryAlts
  cases k v r <;> rfl

theorem tryAlts_append {α : Type} (l1 l2 : List (Nat × List Char))
    (k : Nat → List Char → Option α) :
    tryAlts (l1 ++ l2) k =
      (match tryAlts l1 k with
       | some a => some a
       | none => tryAlts l2 k) := by
  induction l1 with
  | nil => rfl
  | cons p t ih =>
    obtain ⟨v, r⟩ := p
    show (match k v r with
          | some a => some a
          | none => tryAlts (t ++ l2) k) =
        (match (match k v r with
                | some a => some a
                | none => tryAlts t k) with
         | some a => some a
         | none => tryAlts l2 k)
    cases k v r with
    | some a => rfl
    | none => exact ih

theorem tryAlts_cons_none {α : Type} (v : Nat) (r : List Char) (t : List (Nat × List Char))
    (k : Nat → List Char → Option α) (h : k v r = none) :
    tryAlts ((v, r) :: t) k = tryAlts t k := by
  show (match k v r with
        | some a => some a
        | none => tryAlts t k) = tryAlts t k
  rw [h]

theorem tryAlts_cons_some {α : Type} (v : Nat) (r : List Char) (t : List (Nat × List Char))
    (k : Nat → List Char → Option α) (a : α) (h : k v r = some a) :
    tryAlts ((v, r) :: t) k = some a := by
  show (match k v r with
        | some a => some a
        | none => tryAlts t k) = some a
  rw [h]

theorem minute_step (h : Nat) (cs : List Char) :
    tryAlts (minuteAlts cs) (minTailK h) = minuteEnd h cs := by
  cases cs with
  | nil => rfl
  | cons c1 cs1 =>
    cases cs1 with
    | nil =>
      simp only [minuteAlts, minuteEnd]
      by_cases hc : c1.isDigit = true
      · rw [if_pos hc, if_pos hc, tryAlts_singleton]
        rfl
      · rw [if_neg hc, if_neg hc]
        rfl
    | cons c2 cs2 =>
      simp only [minuteAlts]
      by_cases hA : ((c1.isDigit && decide (dval c1 ≤ 5)) && c2.isDigit) = true
      · rw [if_pos hA, List.singleton_append]
        cases cs2 with
        | nil =>
          simp only [minuteEnd]
          rw [if_pos hA]
          exact tryAlts_cons_some _ _ _ _ _ rfl
        | cons c3 cs3 =>
          rw [tryAlts_cons_none _ _ _ _ rfl]
          by_cases hB : c1.isDigit = true
          · rw [if_pos hB, tryAlts_singleton]
            rfl
          · rw [if_neg hB]
            rfl
      · rw [if_neg hA, List.nil_append]
        cases cs2 with
        | nil =>
          simp only [minuteEnd]
          rw [if_neg hA]
          by_cases hB : c1.isDigit = true
          · rw [if_pos hB, tryAlts_singleton]
            rfl
          · rw [if_neg hB]
            rfl
        | cons c3 cs3 =>
          by_cases hB : c1.isDigit = true
          · rw [if_pos hB, tryAlts_singleton]
            rfl
          · rw [if_neg hB]
            rfl

theorem mem_ite_singleton {β : Type} {x a : β} {P : Prop} [Decidable P]
    (hx : x ∈ (if P then [a] else ([] : List β))) : x = a ∧ P := by
  by_cases h : P
  · rw [if_pos h] at hx
    exact ⟨List.mem_singleton.mp hx, h⟩
  · rw [if_neg h] at hx
    cases hx

theorem tryAlts_all_none {α : Type} (alts : List (Nat × List Char))
    (k : Nat → List Char → Option α) (h : ∀ v r, (v, r) ∈ alts → k v r = none) :
    tryAlts alts k = none := by
  induction alts with
  | nil => rfl
  | cons p t ih =>
    obtain ⟨v, r⟩ := p
    rw [tryAlts_cons_none _ _ _ _ (h v r (List.mem_cons_self _ _))]
    exact ih fun v r hm => h v r (List.mem_cons_of_mem _ hm)

theorem tryAlts_pair {α : Type} (v1 : Nat) (r1 : List Char) (v2 : Nat) (r2 : List Char)
    (k : Nat → List Char → Option α) (h : k v2 r2 = none) :
    tryAlts [(v1, r1), (v2, r2)] k = k v1 r1 := by
  cases h1 : k v1 r1 with
  | some a => rw [tryAlts_cons_some _ _ _ _ a h1]
  | none => rw [tryAlts_cons_none _ _ _ _ h1, tryAlts_singleton, h]

theorem hourK_sep (h : Nat) (r : List Char) : hourK h (':' :: r) = minuteEnd h r := by
  simp only [hourK, expectChar, if_true]
  exact minute_step h r

theorem hourK_nosep (h : Nat) (c : Char) (r : List Char) (hc : c ≠ ':') :
    hourK h (c :: r) = none := by
  simp only [hourK, expectChar]
  rw [if_neg hc]

theorem matchHM_eq (cs : List Char) : matchHM cs = specLenHM cs := by
  cases cs with
  | nil => rfl
  | cons c1 cs1 =>
    cases cs1 with
    | nil =>
      show tryAlts (hourAlts [c1]) hourK = none
      simp only [hourAlts]
      by_cases hc : c1.isDigit = true
      · rw [if_pos hc, tryAlts_singleton]
        rfl
      · rw [if_neg hc]
        rfl
    | cons c2 cs2 =>
      by_cases h2 : c2 = ':'
      · subst h2
        simp only [matchHM, specLenHM, hourAlts, if_true]
        have e1 : Char.isDigit ':' = false := rfl
        rw [e1]
        simp only [Bool.false_and, Bool.and_false]
        rw [if_neg Bool.false_ne_true, if_neg Bool.false_ne_true, List.nil_append,
            List.nil_append]
        by_cases hc : c1.isDigit = true
        · rw [if_pos hc, tryAlts_singleton, hourK_sep]
          simp only [hourTok1]
          rw [if_pos hc]
          rfl
        · rw [if_neg hc]
          simp only [hourTok1]
          rw [if_neg hc]
          rfl
      · cases cs2 with
        | nil =>
          simp only [matchHM, specLenHM, hourAlts]
          rw [if_neg h2]
          refine tryAlts_all_none _ _ fun v r hm => ?_
          rcases List.mem_append.mp hm with hm | hm
          · rcases List.mem_append.mp hm with hm | hm
            · obtain ⟨he, -⟩ := mem_ite_singleton hm
              injection he with hv hr
              subst hv
              subst hr
              rfl
            · obtain ⟨he, -⟩ := mem_ite_singleton hm
              injection he with hv hr
              subst hv
              subst hr
              rfl
          · obtain ⟨he, -⟩ := mem_ite_singleton hm
            injection he with hv hr
            subst hv
            subst hr
            exact hourK_nosep _ _ _ h2
        | cons c3 cs3 =>
          by_cases h3 : c3 = ':'
          · subst h3
            simp only [matchHM, specLenHM, hourAlts, if_true]
            rw [if_neg h2]
            by_cases hA : (c1 == '2' && (c2.isDigit && decide (dval c2 ≤ 3))) = true
            · have hA' := hA
              simp only [Bool.and_eq_true, beq_iff_eq] at hA'
              obtain ⟨h21, -⟩ := hA'
              subst h21
              have hBf : ((('2' : Char) == '0' || ('2' : Char) == '1') && c2.isDigit) = false :=
                rfl
              have hCt : (('2' : Char).isDigit = true) := by decide
              rw [if_pos hA, hBf, if_neg Bool.false_ne_true, List.append_nil, if_pos hCt,
                  List.singleton_append, tryAlts_pair _ _ _ _ _ (hourK_nosep _ _ _ h2),
                  hourK_sep]
              simp only [hourTok2]
              rw [if_pos hA]
              rfl
            · by_cases hB : ((c1 == '0' || c1 == '1') && c2.isDigit) = true
              · have hB' := hB
                simp only [Bool.and_eq_true, Bool.or_eq_true, beq_iff_eq] at hB'
                have hCt : c1.isDigit = true := by
                  rcases hB'.1 with h1 | h1
                  · subst h1
                    decide
                  · subst h1
                    decide
                rw [if_neg hA, List.nil_append, if_pos hB, if_pos hCt,
                    List.singleton_append, tryAlts_pair _ _ _ _ _ (hourK_nosep _ _ _ h2),
                    hourK_sep]
                simp only [hourTok2]
                rw [if_neg hA, if_pos hB]
                rfl
              · rw [if_neg hA, List.nil_append, if_neg hB, List.nil_append]
                simp only [hourTok2]
                rw [if_neg hA, if_neg hB]
                by_cases hc : c1.isDigit = true
                · rw [if_pos hc, tryAlts_singleton, hourK_nosep _ _ _ h2]
                  rfl
                · rw [if_neg hc]
                  rfl
          · simp only [matchHM, specLenHM, hourAlts]
            rw [if_neg h2, if_neg h3]
            refine tryAlts_all_none _ _ fun v r hm => ?_
            rcases List.mem_append.mp hm with hm | hm
            · rcases List.mem_append.mp hm with hm | hm
              · obtain ⟨he, -⟩ := mem_ite_singleton hm
                injection he with hv hr
                subst hv
                subst hr
                exact hourK_nosep _ _ _ h3
              · obtain ⟨he, -⟩ := mem_ite_singleton hm
                injection he with hv hr
                subst hv
                subst hr
                exact hourK_nosep _ _ _ h3
            · obtain ⟨he, -⟩ := mem_ite_singleton hm
              injection he with hv hr
              subst hv
              subst hr
              exact hourK_nosep _ _ _ h2

theorem yearK_sep (d m : Nat) (r : List Char) :
    yearK d m ('.' :: r) = (year4 r).map fun y => (d, m, y) := by
  simp only [yearK, expectChar, if_true]

theorem yearK_nosep (d m : Nat) (c : Char) (r : List Char) (hc : c ≠ '.') :
    yearK d m (c :: r) = none := by
  simp only [yearK, expectChar]
  rw [if_neg hc]

theorem month_step (d : Nat) (cs : List Char) :
    tryAlts (monthAlts cs) (yearK d) = specLenMY d cs := by
  cases cs with
  | nil => rfl
  | cons c1 cs1 =>
    cases cs1 with
    | nil =>
      show tryAlts (monthAlts [c1]) (yearK d) = none
      simp only [monthAlts]
      by_cases hc : (c1.isDigit && c1 != '0') = true
      · rw [if_pos hc, tryAlts_singleton]
        rfl
      · rw [if_neg hc]
        rfl
    | cons c2 cs2 =>
      by_cases h2 : c2 = '.'
      · subst h2
        simp only [monthAlts, specLenMY, if_true]
        have eA : (('.' : Char) == '0' || ('.' : Char) == '1' || ('.' : Char) == '2') = false :=
          rfl
        have e1 : Char.isDigit '.' = false := rfl
        rw [eA, e1]
        simp only [Bool.false_and, Bool.and_false]
        rw [if_neg Bool.false_ne_true, if_neg Bool.false_ne_true, List.nil_append,
            List.nil_append]
        by_cases hc : (c1.isDigit && c1 != '0') = true
        · rw [if_pos hc, tryAlts_singleton, yearK_sep]
          simp only [monthTok1]
          rw [if_pos hc]
          rfl
        · rw [if_neg hc]
          simp only [monthTok1]
          rw [if_neg hc]
          rfl
      · cases cs2 with
        | nil =>
          simp only [monthAlts, specLenMY]
          rw [if_neg h2]
          refine tryAlts_all_none _ _ fun v r hm => ?_
          rcases List.mem_append.mp hm with hm | hm
          · rcases List.mem_append.mp hm with hm | hm
            · obtain ⟨he, -⟩ := mem_ite_singleton hm
              injection he with hv hr
              subst hv
              subst hr
              rfl
            · obtain ⟨he, -⟩ := mem_ite_singleton hm
              injection he with hv hr
              subst hv
              subst hr
              rfl
          · obtain ⟨he, -⟩ := mem_ite_singleton hm
            injection he with hv hr
            subst hv
            subst hr
            exact yearK_nosep _ _ _ _ h2
        | cons c3 cs3 =>
          by_cases h3 : c3 = '.'
          · subst h3
            simp only [monthAlts, specLenMY, if_true]
            rw [if_neg h2]
            by_cases hA : (c1 == '1' && (c2 == '0' || c2 == '1' || c2 == '2')) = true
            · have hA' := hA
              simp only [Bool.and_eq_true, beq_iff_eq] at hA'
              obtain ⟨h11, -⟩ := hA'
              subst h11
              have hBf : ((('1' : Char) == '0') && (c2.isDigit && c2 != '0')) = false := rfl
              have hCt : ((('1' : Char).isDigit && ('1' : Char) != '0') = true) := by decide
              rw [if_pos hA, hBf, if_neg Bool.false_ne_true, List.append_nil, if_pos hCt,
                  List.singleton_append, tryAlts_pair _ _ _ _ _ (yearK_nosep _ _ _ _ h2),
                  yearK_sep]
              simp only [monthTok2]
              rw [if_pos hA]
              rfl
            · by_cases hB : (c1 == '0' && (c2.isDigit && c2 != '0')) = true
              · have hB' := hB
                simp only [Bool.and_eq_true, beq_iff_eq] at hB'
                obtain ⟨h10, -⟩ := hB'
                subst h10
                have hCf : ((('0' : Char).isDigit && ('0' : Char) != '0') = false) := rfl
                rw [if_neg hA, List.nil_append, if_pos hB, hCf, if_neg Bool.false_ne_true,
                    List.append_nil, tryAlts_singleton, yearK_sep]
                simp only [monthTok2]
                rw [if_neg hA, if_pos hB]
                rfl
              · rw [if_neg hA, List.nil_append, if_neg hB, List.nil_append]
                simp only [monthTok2]
                rw [if_neg hA, if_neg hB]
                by_cases hc : (c1.isDigit && c1 != '0') = true
                · rw [if_pos hc, tryAlts_singleton, yearK_nosep _ _ _ _ h2]
                  rfl
                · rw [if_neg hc]
                  rfl
          · simp only [monthAlts, specLenMY]
            rw [if_neg h2, if_neg h3]
            refine tryAlts_all_none _ _ fun v r hm => ?_
            rcases List.mem_append.mp hm with hm | hm
            · rcases List.mem_append.mp hm with hm | hm
              · obtain ⟨he, -⟩ := mem_ite_singleton hm
                injection he with hv hr
                subst hv
                subst hr
                exact yearK_nosep _ _ _ _ h3
              · obtain ⟨he, -⟩ := mem_ite_singleton hm
                injection he with hv hr
                subst hv
                subst hr
                exact yearK_nosep _ _ _ _ h3
            · obtain ⟨he, -⟩ := mem_ite_singleton hm
              injection he with hv hr
              subst hv
              subst hr
              exact yearK_nosep _ _ _ _ h2

theorem monthK_sep (d : Nat) (r : List Char) : monthK d ('.' :: r) = specLenMY d r := by
  simp only [monthK, expectChar, if_true]
  exact month_step d r

theorem monthK_nosep (d : Nat) (c : Char) (r : List Char) (hc : c ≠ '.') :
    monthK d (c :: r) = none := by
  simp only [monthK, expectChar]
  rw [if_neg hc]

theorem matchDMY_eq (cs : List Char) : matchDMY cs = specLenDMY cs := by
  cases cs with
  | nil => rfl
  | cons c1 cs1 =>
    cases cs1 with
    | nil =>
      show tryAlts (dayAlts [c1]) monthK = none
      simp only [dayAlts]
      by_cases hc : (c1.isDigit && c1 != '0') = true
      · rw [if_pos hc, tryAlts_singleton]
        rfl
      · rw [if_neg hc]
        rfl
    | cons c2 cs2 =>
      by_cases h2 : c2 = '.'
      · subst h2
        simp only [matchDMY, dayAlts, specLenDMY, if_true]
        have eA : (('.' : Char) == '0' || ('.' : Char) == '1') = false := rfl
        have e1 : Char.isDigit '.' = false := rfl
        rw [eA, e1]
        simp only [Bool.false_and, Bool.and_false]
        rw [if_neg Bool.false_ne_true, if_neg Bool.false_ne_true, if_neg Bool.false_ne_true]
        simp only [List.nil_append, List.append_nil]
        by_cases hc : (c1.isDigit && c1 != '0') = true
        · rw [if_pos hc, tryAlts_singleton, monthK_sep]
          simp only [dayTok1]
          rw [if_pos hc]
          rfl
        · rw [if_neg hc]
          simp only [dayTok1]
          rw [if_neg hc]
          rfl
      · cases cs2 with
        | nil =>
          simp only [matchDMY, dayAlts, specLenDMY]
          rw [if_neg h2]
          refine tryAlts_all_none _ _ fun v r hm => ?_
          rcases List.mem_append.mp hm with hm | hm
          · rcases List.mem_append.mp hm with hm | hm
            · rcases List.mem_append.mp hm with hm | hm
              · rcases List.mem_append.mp hm with hm | hm
                · obtain ⟨he, -⟩ := mem_ite_singleton hm
                  injection he with hv hr
                  subst hv
                  subst hr
                  rfl
                · obtain ⟨he, -⟩ := mem_ite_singleton hm
                  injection he with hv hr
                  subst hv
                  subst hr
                  rfl
              · obtain ⟨he, -⟩ := mem_ite_singleton hm
                injection he with hv hr
                subst hv
                subst hr
                rfl
            · obtain ⟨he, -⟩ := mem_ite_singleton hm
              injection he with hv hr
              subst hv
              subst hr
              exact monthK_nosep _ _ _ h2
          · obtain ⟨he, -⟩ := mem_ite_singleton hm
            injection he with hv hr
            subst hv
            subst hr
            rfl
        | cons c3 cs3 =>
          by_cases h3 : c3 = '.'
          · subst h3
            simp only [matchDMY, dayAlts, specLenDMY, if_true]
            rw [if_neg h2]
            by_cases hA : (c1 == '3' && (c2 == '0' || c2 == '1')) = true
            · have hA' := hA
              simp only [Bool.and_eq_true, beq_iff_eq] at hA'
              obtain ⟨h13, -⟩ := hA'
              subst h13
              have hBf : (((('3' : Char) == '1') || (('3' : Char) == '2')) && c2.isDigit) =
                  false := rfl
              have hCf : ((('3' : Char) == '0') && (c2.isDigit && c2 != '0')) = false := rfl
              have hEf : ((('3' : Char) == ' ') && (c2.isDigit && c2 != '0')) = false := rfl
              have hDt : ((('3' : Char).isDigit && ('3' : Char) != '0') = true) := by decide
              rw [if_pos hA, hBf, if_neg Bool.false_ne_true, hCf, if_neg Bool.false_ne_true,
                  hEf, if_neg Bool.false_ne_true, if_pos hDt]
              simp only [List.append_nil, List.nil_append]
              rw [List.singleton_append, tryAlts_pair _ _ _ _ _ (monthK_nosep _ _ _ h2),
                  monthK_sep]
              simp only [dayTok2]
              rw [if_pos hA]
              rfl
            · by_cases hB : ((c1 == '1' || c1 == '2') && c2.isDigit) = true
              · have hB' := hB
                simp only [Bool.and_eq_true, Bool.or_eq_true, beq_iff_eq] at hB'
                have hCf : ((c1 == '0') && (c2.isDigit && c2 != '0')) = false := by
                  rcases hB'.1 with h1 | h1
                  · subst h1
                    rfl
                  · subst h1
                    rfl
                have hEf : ((c1 == ' ') && (c2.isDigit && c2 != '0')) = false := by
                  rcases hB'.1 with h1 | h1
                  · subst h1
                    rfl
                  · subst h1
                    rfl
                have hDt : ((c1.isDigit && c1 != '0') = true) := by
                  rcases hB'.1 with h1 | h1
                  · subst h1
                    decide
                  · subst h1
                    decide
                rw [if_neg hA, List.nil_append, if_pos hB, hCf, if_neg Bool.false_ne_true,
                    hEf, if_neg Bool.false_ne_true, if_pos hDt]
                simp only [List.append_nil, List.nil_append]
                rw [List.singleton_append, tryAlts_pair _ _ _ _ _ (monthK_nosep _ _ _ h2),
                    monthK_sep]
                simp only [dayTok2]
                rw [if_neg hA, if_pos hB]
                rfl
              · by_cases hC : (c1 == '0' && (c2.isDigit && c2 != '0')) = true
                · have hC' := hC
                  simp only [Bool.and_eq_true, beq_iff_eq] at hC'
                  obtain ⟨h10, -⟩ := hC'
                  subst h10
                  have hDf : ((('0' : Char).isDigit && ('0' : Char) != '0') = false) := rfl
                  have hEf : ((('0' : Char) == ' ') && (c2.isDigit && c2 != '0')) = false :=
                    rfl
                  rw [if_neg hA, if_neg hB, if_pos hC, hDf, if_neg Bool.false_ne_true,
                      hEf, if_neg Bool.false_ne_true]
                  simp only [List.append_nil, List.nil_append]
                  rw [tryAlts_singleton, monthK_sep]
                  simp only [dayTok2]
                  rw [if_neg hA, if_neg hB, if_pos hC]
                  rfl
                · by_cases hE : (c1 == ' ' && (c2.isDigit && c2 != '0')) = true
                  · have hE' := hE
                    simp only [Bool.and_eq_true, beq_iff_eq] at hE'
                    obtain ⟨h1s, -⟩ := hE'
                    subst h1s
                    have hDf : (((' ' : Char).isDigit && (' ' : Char) != '0') = false) := rfl
                    rw [if_neg hA, if_neg hB, if_neg hC, hDf, if_neg Bool.false_ne_true,
                        if_pos hE]
                    simp only [List.append_nil, List.nil_append]
                    rw [tryAlts_singleton, monthK_sep]
                    simp only [dayTok2]
                    rw [if_neg hA, if_neg hB, if_neg hC, if_pos hE]
                    rfl
                  · rw [if_neg hA, if_neg hB, if_neg hC, if_neg hE]
                    simp only [List.append_nil, List.nil_append]
                    simp only [dayTok2]
                    rw [if_neg hA, if_neg hB, if_neg hC, if_neg hE]
                    by_cases hD : (c1.isDigit && c1 != '0') = true
                    · rw [if_pos hD, tryAlts_singleton, monthK_nosep _ _ _ h2]
                      rfl
                    · rw [if_neg hD]
                      rfl
          · simp only [matchDMY, dayAlts, specLenDMY]
            rw [if_neg h2, if_neg h3]
            refine tryAlts_all_none _ _ fun v r hm => ?_
            rcases List.mem_append.mp hm with hm | hm
            · rcases List.mem_append.mp hm with hm | hm
              · rcases List.mem_append.mp hm with hm | hm
                · rcases List.mem_append.mp hm with hm | hm
                  · obtain ⟨he, -⟩ := mem_ite_singleton hm
                    injection he with hv hr
                    subst hv
                    subst hr
                    exact monthK_nosep _ _ _ h3
                  · obtain ⟨he, -⟩ := mem_ite_singleton hm
                    injection he with hv hr
                    subst hv
                    subst hr
                    exact monthK_nosep _ _ _ h3
                · obtain ⟨he, -⟩ := mem_ite_singleton hm
                  injection he with hv hr
                  subst hv
                  subst hr
                  exact monthK_nosep _ _ _ h3
              · obtain ⟨he, -⟩ := mem_ite_singleton hm
                injection he with hv hr
                subst hv
                subst hr
                exact monthK_nosep _ _ _ h2
            · obtain ⟨he, -⟩ := mem_ite_singleton hm
              injection he with hv hr
              subst hv
              subst hr
              exact monthK_nosep _ _ _ h3

theorem parseDate_eq (s : String) : parseDate s = specLenDate s := by
  simp only [parseDate, specLenDate, matchDMY_eq]

theorem parseTime_eq (s : String) : parseTime s = specLenTime s := by
  simp only [parseTime, specLenTime]
  exact matchHM_eq s.data

/-- C5. Counterexample to the exact-format contract: `"1.5.2025"` is not of
the exact `DD.MM.YYYY` shape and `"1:5"` is not of the exact `HH:MM` shape,
yet `set_date` parses the former (storing day 1, month 5) and advances to
`SET_TIME`, and `set_time` parses the latter and advances to the recurrence
question: strptime accepts one-digit day, month, hour and minute fields. -/
theorem C5_exact_format_counterexample :
    specExactDateOK "1.5.2025" = false ∧
    (stepConv 1 ConvState.SET_DATE (Event.message "1.5.2025") Scratch.empty
      ⟨[], [], 1, 1⟩).state = ConvState.SET_TIME ∧
    (stepConv 1 ConvState.SET_DATE (Event.message "1.5.2025") Scratch.empty
      ⟨[], [], 1, 1⟩).scratch.date = some ⟨⟨2025, 5, 1, 0, 0⟩, none⟩ ∧
    specExactTimeOK "1:5" = false ∧
    (stepConv 1 ConvState.SET_TIME (Event.message "1:5")
      ⟨none, some ⟨⟨2025, 5, 1, 0, 0⟩, none⟩, none, none, none⟩
      ⟨[], [], 1, 1⟩).state = ConvState.ADDING_REMINDER := by
  refine ⟨rfl, rfl, rfl, rfl, rfl⟩

/-- C5 (amended). The accepted inputs are exactly the
`strptime("%d.%m.%Y")` / `strptime("%H:%M")` languages, a lenient superset
of the claimed exact forms: the day is `30`/`31`, `10`–`29`, `01`–`09`, a
bare nonzero digit or a space plus nonzero digit; the month is `10`–`12`,
`01`–`09` or a bare nonzero digit; the year is exactly four digits and the
date must be calendar-valid; the hour is `20`–`23`, a zero-padded `00`–`19`
or any bare digit, and the minute one digit or two digits up to `59`.  On
acceptance `SET_DATE` stores the parsed calendar day and advances to
`SET_TIME`, and `SET_TIME` combines the stored day with the parsed
hour:minute (pytz-LMT offset attached) and advances to the recurrence
question; on rejection the state is unchanged and the handler re-prompts
with the error-marker format instructions. -/
theorem C5_format_contract_amended (uid : Nat) (s : String) (sc : Scratch) (db : BotDB) :
    stepConv uid ConvState.SET_DATE (Event.message s) sc db =
      (match specLenDate s with
       | some (d, m, y) =>
         { state := ConvState.SET_TIME,
           scratch := { sc with date := some ⟨⟨y, m, d, 0, 0⟩, none⟩ },
           db := db, reply := some ⟨timePrompt, cancelKb⟩ }
       | none =>
         { state := ConvState.SET_DATE, scratch := sc, db := db,
           reply := some ⟨dateErrPrompt, cancelKb⟩ }) ∧
    stepConv uid ConvState.SET_TIME (Event.message s) sc db =
      (match specLenTime s, sc.date with
       | some (hh, mm), some p =>
         { state := ConvState.ADDING_REMINDER,
           scratch := { sc with date := some ⟨⟨p.dt.year, p.dt.month, p.dt.day, hh, mm⟩, some tashkentReplaceOffset⟩ },
           db := db, reply := some ⟨recurPrompt, recurringKb⟩ }
       | some _, none =>
         { state := ConvState.SET_TIME, scratch := sc, db := db, reply := none }
       | none, _ =>
         { state := ConvState.SET_TIME, scratch := sc, db := db,
           reply := some ⟨timeErrPrompt, cancelKb⟩ }) := by
  constructor
  · show setDateHandler s sc db = _
    simp only [setDateHandler, parseDate_eq]
  · show (match setTimeHandler s sc db with
          | some res => res
          | none =>
            { state := ConvState.SET_TIME, scratch := sc, db := db, reply := none }) = _
    simp only [setTimeHandler, parseTime_eq]
    cases h : specLenTime s with
    | none => rfl
    | some t =>
      obtain ⟨hh, mm⟩ := t
      cases hd : sc.date with
      | none => rfl
      | some p => rfl

end EslatmaBot
